import Mathlib

/-!
Verification development for the `whoop-garden` day-data aggregation core
(`internal/fetch/fetch.go` together with the record shapes of
`internal/models/models.go`).

The embedding is shallow:

* Go `time.Time` values are embedded as `Instant := Int`, the count of
  nanoseconds since the Unix epoch (Go's wall clock is exactly that, UTC).
  The displayed location of the *input* date matters only for the
  `Year()/Month()/Day()` extraction inside `GetDayData`, so an input date is
  a pair of an instant and a fixed display offset (`GoTime`).
* Calendar conversion uses the standard civil-from-days / days-from-civil
  algorithms (proleptic Gregorian), matching Go's `time` arithmetic on the
  ranges exercised here.
* The HTTP collaborator `client.Client.Get` is embedded as one response
  function per resource endpoint.  A response is either the distinguished
  not-found error (`client.ErrNotFound`, HTTP 404), another transport or
  server error, a 2xx body that unmarshals into a page, or a 2xx body that
  fails to unmarshal (`json.Unmarshal` failure).  The JSON codec itself is
  external library code and is abstracted by that four-way split.
* The unbounded `for` loop of `fetchPaginated` is embedded with an explicit
  fuel parameter; `none` means the loop did not finish within the given
  fuel (the Go loop genuinely diverges on a server that never stops
  handing out continuation tokens).  Alongside the result, the embedding
  returns the list of requests issued, in order — this is the observable
  interaction with the collaborator, which several spec sentences
  quantify over.
* The three post-cycle fetches run in goroutines whose results are read
  from single-slot buffered channels in the fixed order recovery, sleep,
  workout.  All three goroutines always run to completion, so the
  observable behaviour is deterministic and the embedding evaluates the
  three fetches and joins them in that order.
* Scoring payloads (`CycleScore`, `RecoveryScore`, ... — all float-valued)
  are carried opaquely by the fetch layer and never inspected by it, so
  the embedded records keep the identifier/timestamp/state fields and omit
  the floating-point score blobs.
-/

namespace Whoop

/-! ## Time model -/

/-- Nanoseconds since the Unix epoch, UTC (Go `time.Time`'s absolute clock). -/
abbrev Instant := Int

def nsPerSecond : Int := 1000000000

def nsPerMinute : Int := 60 * nsPerSecond

def nsPerHour : Int := 60 * nsPerMinute

def nsPerDay : Int := 24 * nsPerHour

/-- A proleptic-Gregorian calendar date. -/
structure CivilDate where
  year : Int
  month : Int
  day : Int
  deriving DecidableEq, Repr

/-- Leap-year rule of the Gregorian calendar (Go `isLeap`). -/
def isLeapYear (y : Int) : Bool := y % 4 = 0 && (y % 100 ≠ 0 || y % 400 = 0)

/-- Days in a month (Go `daysIn`); `m` is 1-based. -/
def daysInMonth (y : Int) (m : Int) : Int :=
  if m = 2 then (if isLeapYear y then 29 else 28)
  else if m = 4 ∨ m = 6 ∨ m = 9 ∨ m = 11 then 30
  else 31

/-- Days since the Unix epoch of a civil date (Howard Hinnant's
`days_from_civil`, the algorithm underlying Go's date arithmetic). -/
def daysFromCivil (y m d : Int) : Int :=
  let y1 := y - (if m ≤ 2 then 1 else 0)
  let era := y1.ediv 400
  let yoe := y1 - era * 400
  let doy := (153 * (m + (if 2 < m then -3 else 9)) + 2).ediv 5 + d - 1
  let doe := yoe * 365 + yoe.ediv 4 - yoe.ediv 100 + doy
  era * 146097 + doe - 719468

/-- Civil date of a days-since-epoch count (Hinnant's `civil_from_days`). -/
def civilFromDays (z0 : Int) : CivilDate :=
  let z := z0 + 719468
  let era := z.ediv 146097
  let doe := z - era * 146097
  let yoe := (doe - doe.ediv 1460 + doe.ediv 36524 - doe.ediv 146096).ediv 365
  let y := yoe + era * 400
  let doy := doe - (365 * yoe + yoe.ediv 4 - yoe.ediv 100)
  let mp := (5 * doy + 2).ediv 153
  let d := doy - (153 * mp + 2).ediv 5 + 1
  let m := mp + (if mp < 10 then 3 else -9)
  ⟨y + (if m ≤ 2 then 1 else 0), m, d⟩

/-- Go `time.Date (y, m, d, 0, 0, 0, 0, time.UTC)`: the UTC-midnight instant
of a civil date. -/
def mkUTCDate (cd : CivilDate) : Instant :=
  daysFromCivil cd.year cd.month cd.day * nsPerDay

/-- The instant of a UTC civil datetime with nanoseconds (what `time.Parse`
produces for the formats used here, before applying a zone offset). -/
def civilInstant (y mo d h mi s ns : Nat) : Instant :=
  daysFromCivil (y : Int) (mo : Int) (d : Int) * nsPerDay
    + ((h : Int) * 3600 + (mi : Int) * 60 + (s : Int)) * nsPerSecond + (ns : Int)

/-- A Go `time.Time` as observed by `GetDayData`: the absolute instant plus
the fixed offset of its displayed location (0 for UTC).  Only
`Year()/Month()/Day()` of the aggregation's input date depend on the
location, and those read the local clock `instant + offsetNs`. -/
structure GoTime where
  instant : Instant
  offsetNs : Int
  deriving DecidableEq, Repr

/-- The calendar date a Go time displays (`t.Year(), t.Month(), t.Day()`). -/
def displayedCivil (t : GoTime) : CivilDate :=
  civilFromDays ((t.instant + t.offsetNs).ediv nsPerDay)

/-! ## Record model (`internal/models/models.go`) -/

/-- `models.Cycle` (scoring payload omitted — never inspected by fetch). -/
structure Cycle where
  id : Int
  userId : Int
  createdAt : String
  updatedAt : String
  start : String
  endStr : String
  timezoneOffset : String
  scoreState : String
  deriving DecidableEq, Repr

/-- `models.Recovery` (scoring payload omitted). -/
structure Recovery where
  cycleId : Int
  sleepId : String
  userId : Int
  createdAt : String
  updatedAt : String
  scoreState : String
  deriving DecidableEq, Repr

/-- `models.Sleep` (scoring payload omitted). -/
structure Sleep where
  id : String
  v1Id : Option Int
  userId : Int
  createdAt : String
  updatedAt : String
  start : String
  endStr : String
  timezoneOffset : String
  nap : Bool
  scoreState : String
  deriving DecidableEq, Repr

/-- `models.Workout` (scoring payload omitted). -/
structure Workout where
  id : String
  v1Id : Option Int
  userId : Int
  createdAt : String
  updatedAt : String
  start : String
  endStr : String
  timezoneOffset : String
  sportId : Int
  sportName : String
  scoreState : String
  deriving DecidableEq, Repr

/-- `models.PaginatedResponse[T]`. -/
structure PaginatedResponse (α : Type) where
  records : List α
  nextToken : String
  deriving DecidableEq, Repr

/-! ## Client model (`internal/client`) -/

/-- One GET request as issued by `fetchPaginated`: the window parameters
(`start`, `end`, sent as RFC3339 UTC renderings of these instants) and the
optional `nextToken` parameter (absent on the first page). -/
structure Request where
  rstart : Instant
  rend : Instant
  token : Option String
  deriving DecidableEq, Repr

/-- Outcome of one `client.Get` call followed by `json.Unmarshal`, which is
how `fetchPaginated` consumes the body:

* `notFound` — `client.ErrNotFound` (HTTP 404);
* `fail` — any other transport or non-2xx error;
* `okBody` — 2xx body that unmarshals into a page;
* `badBody` — 2xx body on which `json.Unmarshal` fails. -/
inductive GetResult (α : Type) where
  | notFound
  | fail (msg : String)
  | okBody (page : PaginatedResponse α)
  | badBody (msg : String)

/-- The HTTP collaborator, one response function per resource endpoint. -/
structure Client where
  cycles : Request → GetResult Cycle
  recoveries : Request → GetResult Recovery
  sleeps : Request → GetResult Sleep
  workouts : Request → GetResult Workout

/-! ## Paginated fetch (`fetchPaginated`, current source) -/

/-- The `for` loop of `fetchPaginated`, with fuel.  Returns the requests
issued (in order) and the Go function's `([]T, error)` result; `none` means
the loop did not terminate within the fuel. -/
def fetchLoop {α : Type} (get : Request → GetResult α) (path : String)
    (rstart rend : Instant) :
    Nat → List α → Option String → Option (List Request × Except String (List α))
  | 0, _, _ => none
  | fuel + 1, all, tok =>
    let req : Request := ⟨rstart, rend, tok⟩
    match get req with
    | .notFound => some ([req], .ok all)
    | .fail msg => some ([req], .error ("get " ++ path ++ ": " ++ msg))
    | .badBody msg => some ([req], .error ("parse " ++ path ++ ": " ++ msg))
    | .okBody page =>
      let all2 := all ++ page.records
      if page.nextToken = "" then some ([req], .ok all2)
      else
        match fetchLoop get path rstart rend fuel all2 (some page.nextToken) with
        | none => none
        | some (reqs, r) => some (req :: reqs, r)

/-- `fetchPaginated` of the current source: accumulator starts empty, first
request carries no `nextToken`. -/
def fetchPaginated {α : Type} (get : Request → GetResult α) (path : String)
    (rstart rend : Instant) (fuel : Nat) :
    Option (List Request × Except String (List α)) :=
  fetchLoop get path rstart rend fuel [] none

/-- `fetch.GetCycles` (current source). -/
def GetCycles (c : Client) (rstart rend : Instant) (fuel : Nat) :
    Option (List Request × Except String (List Cycle)) :=
  fetchPaginated c.cycles ("/cycle") rstart rend fuel

/-- `fetch.GetRecoveries` (current source). -/
def GetRecoveries (c : Client) (rstart rend : Instant) (fuel : Nat) :
    Option (List Request × Except String (List Recovery)) :=
  fetchPaginated c.recoveries ("/recovery") rstart rend fuel

/-- `fetch.GetSleeps` (current source). -/
def GetSleeps (c : Client) (rstart rend : Instant) (fuel : Nat) :
    Option (List Request × Except String (List Sleep)) :=
  fetchPaginated c.sleeps ("/activity/sleep") rstart rend fuel

/-- `fetch.GetWorkouts` (current source). -/
def GetWorkouts (c : Client) (rstart rend : Instant) (fuel : Nat) :
    Option (List Request × Except String (List Workout)) :=
  fetchPaginated c.workouts ("/activity/workout") rstart rend fuel

/-! ## The four hand-specialized pagination loops of the older version of
`fetch.go` (`src/unnamed/part_002`), embedded separately for the
refinement-equivalence claim. -/

/-- The `for` loop of the old `GetCycles`. -/
def getCyclesOldLoop (get : Request → GetResult Cycle) (rstart rend : Instant) :
    Nat → List Cycle → Option String → Option (List Request × Except String (List Cycle))
  | 0, _, _ => none
  | fuel + 1, all, tok =>
    let req : Request := ⟨rstart, rend, tok⟩
    match get req with
    | .notFound => some ([req], .ok all)
    | .fail msg => some ([req], .error ("get cycles: " ++ msg))
    | .badBody msg => some ([req], .error ("parse cycles: " ++ msg))
    | .okBody page =>
      let all2 := all ++ page.records
      if page.nextToken = "" then some ([req], .ok all2)
      else
        match getCyclesOldLoop get rstart rend fuel all2 (some page.nextToken) with
        | none => none
        | some (reqs, r) => some (req :: reqs, r)

/-- The old `GetCycles`. -/
def GetCyclesOld (c : Client) (rstart rend : Instant) (fuel : Nat) :
    Option (List Request × Except String (List Cycle)) :=
  getCyclesOldLoop c.cycles rstart rend fuel [] none

/-- The `for` loop of the old `GetRecoveries`. -/
def getRecoveriesOldLoop (get : Request → GetResult Recovery) (rstart rend : Instant) :
    Nat → List Recovery → Option String → Option (List Request × Except String (List Recovery))
  | 0, _, _ => none
  | fuel + 1, all, tok =>
    let req : Request := ⟨rstart, rend, tok⟩
    match get req with
    | .notFound => some ([req], .ok all)
    | .fail msg => some ([req], .error ("get recoveries: " ++ msg))
    | .badBody msg => some ([req], .error ("parse recoveries: " ++ msg))
    | .okBody page =>
      let all2 := all ++ page.records
      if page.nextToken = "" then some ([req], .ok all2)
      else
        match getRecoveriesOldLoop get rstart rend fuel all2 (some page.nextToken) with
        | none => none
        | some (reqs, r) => some (req :: reqs, r)

/-- The old `GetRecoveries`. -/
def GetRecoveriesOld (c : Client) (rstart rend : Instant) (fuel : Nat) :
    Option (List Request × Except String (List Recovery)) :=
  getRecoveriesOldLoop c.recoveries rstart rend fuel [] none

/-- The `for` loop of the old `GetSleeps`. -/
def getSleepsOldLoop (get : Request → GetResult Sleep) (rstart rend : Instant) :
    Nat → List Sleep → Option String → Option (List Request × Except String (List Sleep))
  | 0, _, _ => none
  | fuel + 1, all, tok =>
    let req : Request := ⟨rstart, rend, tok⟩
    match get req with
    | .notFound => some ([req], .ok all)
    | .fail msg => some ([req], .error ("get sleeps: " ++ msg))
    | .badBody msg => some ([req], .error ("parse sleeps: " ++ msg))
    | .okBody page =>
      let all2 := all ++ page.records
      if page.nextToken = "" then some ([req], .ok all2)
      else
        match getSleepsOldLoop get rstart rend fuel all2 (some page.nextToken) with
        | none => none
        | some (reqs, r) => some (req :: reqs, r)

/-- The old `GetSleeps`. -/
def GetSleepsOld (c : Client) (rstart rend : Instant) (fuel : Nat) :
    Option (List Request × Except String (List Sleep)) :=
  getSleepsOldLoop c.sleeps rstart rend fuel [] none

/-- The `for` loop of the old `GetWorkouts`. -/
def getWorkoutsOldLoop (get : Request → GetResult Workout) (rstart rend : Instant) :
    Nat → List Workout → Option String → Option (List Request × Except String (List Workout))
  | 0, _, _ => none
  | fuel + 1, all, tok =>
    let req : Request := ⟨rstart, rend, tok⟩
    match get req with
    | .notFound => some ([req], .ok all)
    | .fail msg => some ([req], .error ("get workouts: " ++ msg))
    | .badBody msg => some ([req], .error ("parse workouts: " ++ msg))
    | .okBody page =>
      let all2 := all ++ page.records
      if page.nextToken = "" then some ([req], .ok all2)
      else
        match getWorkoutsOldLoop get rstart rend fuel all2 (some page.nextToken) with
        | none => none
        | some (reqs, r) => some (req :: reqs, r)

/-- The old `GetWorkouts`. -/
def GetWorkoutsOld (c : Client) (rstart rend : Instant) (fuel : Nat) :
    Option (List Request × Except String (List Workout)) :=
  getWorkoutsOldLoop c.workouts rstart rend fuel [] none

/-! ## Timestamp parsing (`ParseWhoopTime`) -/

/-- The WHOOP-native layout constant of the source (`whoopTimeLayout`). -/
def whoopTimeLayout : String := "2006-01-02T15:04:05.999Z"

/-- Numeric value of a decimal digit character. -/
def dval (c : Char) : Nat := c.toNat - 48

/-- Value of two decimal digit characters. -/
def val2 (a b : Char) : Nat := 10 * dval a + dval b

/-- Value of four decimal digit characters. -/
def val4 (a b c d : Char) : Nat :=
  1000 * dval a + 100 * dval b + 10 * dval c + dval d

/-- Exactly two decimal digits (Go `getnum` with `fixed = true`, used for
the zero-padded `01 02 04 05` layout fields). -/
def read2 : List Char → Option (Nat × List Char)
  | c1 :: c2 :: rest =>
    if c1.isDigit && c2.isDigit then some (val2 c1 c2, rest) else none
  | _ => none

/-- Exactly four decimal digits (Go's `2006` long-year field). -/
def read4 : List Char → Option (Nat × List Char)
  | c1 :: c2 :: c3 :: c4 :: rest =>
    if c1.isDigit && c2.isDigit && c3.isDigit && c4.isDigit then
      some (val4 c1 c2 c3 c4, rest)
    else none
  | _ => none

/-- One or two decimal digits (Go `getnum` with `fixed = false`, used for
the `15` hour field of the native layout). -/
def readNum12 : List Char → Option (Nat × List Char)
  | c1 :: c2 :: rest =>
    if c1.isDigit then
      if c2.isDigit then some (val2 c1 c2, rest)
      else some (dval c1, c2 :: rest)
    else none
  | [c1] => if c1.isDigit then some (dval c1, []) else none
  | [] => none

/-- Literal character of the layout. -/
def expect (c : Char) : List Char → Option (List Char)
  | x :: rest => if x = c then some rest else none
  | [] => none

/-- Value of a left-to-right decimal digit string. -/
def digitsVal (ds : List Char) : Nat := ds.foldl (fun a c => 10 * a + dval c) 0

/-- Go `parseNanoseconds`: the digit run after the separator read as a
fraction of a second, truncated to nanosecond precision after nine digits. -/
def fracNanos (ds : List Char) : Nat :=
  if ds.length ≤ 9 then digitsVal ds * 10 ^ (9 - ds.length)
  else digitsVal (ds.take 9)

/-- Optional fractional-second field (Go `stdFracSecond9` for the `.999`
layout field; the RFC3339 fast path accepts only a period separator).
Absent fractions consume nothing and contribute zero nanoseconds. -/
def readFrac (allowComma : Bool) (l : List Char) : Nat × List Char :=
  match l with
  | c0 :: c1 :: rest =>
    if (c0 = ('.') || (allowComma && c0 = (','))) && c1.isDigit then
      (fracNanos ((c1 :: rest).takeWhile Char.isDigit),
        (c1 :: rest).dropWhile Char.isDigit)
    else (0, c0 :: c1 :: rest)
  | l0 => (0, l0)

/-- `time.Parse (whoopTimeLayout, s)`: Go's generic layout parser applied to
`"2006-01-02T15:04:05.999Z"` (the trailing `Z` is a literal byte, so the
result carries no zone offset and is UTC). -/
def parseNative (s : String) : Option Instant :=
  (read4 s.data).bind fun (y, l) =>
  (expect ('-') l).bind fun l =>
  (read2 l).bind fun (mo, l) =>
  (expect ('-') l).bind fun l =>
  (read2 l).bind fun (d, l) =>
  (expect ('T') l).bind fun l =>
  (readNum12 l).bind fun (h, l) =>
  if 24 ≤ h then none else
  (expect (':') l).bind fun l =>
  (read2 l).bind fun (mi, l) =>
  if 60 ≤ mi then none else
  (expect (':') l).bind fun l =>
  (read2 l).bind fun (sec, l) =>
  if 60 ≤ sec then none else
  match readFrac true l with
  | (ns, l) =>
    (expect ('Z') l).bind fun l =>
    if l ≠ [] then none else
    if mo < 1 ∨ 12 < mo then none else
    if d < 1 ∨ daysInMonth (y : Int) (mo : Int) < (d : Int) then none else
    some (civilInstant y mo d h mi sec ns)

/-- The `Z07:00` layout chunk as Go's generic layout parser reads it
(`stdISO8601ColonTZ`): the single byte `Z`, or `±hh:mm` with two digit
pairs whose values are *not* range-checked (Go accepts `+99:99`); after
the zone the layout ends, so any trailing input is an "extra text" error —
hence the exact-list patterns.  Returns the offset in seconds east of
UTC. -/
def parseZone : List Char → Option Int
  | [z] => if z = ('Z') then some 0 else none
  | [sg, h1, h2, cl, m1, m2] =>
    if cl = (':') ∧ (sg = ('+') ∨ sg = ('-')) ∧ h1.isDigit = true ∧ h2.isDigit = true ∧
        m1.isDigit = true ∧ m2.isDigit = true then
      some ((if sg = ('-') then -1 else 1) *
        ((val2 h1 h2 : Int) * 60 + (val2 m1 m2 : Int)) * 60)
    else none
  | _ => none

/-- `time.Parse (time.RFC3339, s)`: Go's `Parse` tries a strict fast path
for this layout but, when that fails, falls back to the generic layout
parser of `"2006-01-02T15:04:05Z07:00"` — and the fast path's language is
a subset of the generic one with identical values, so `Parse` on this
layout is exactly the generic (lenient) parse: one- or two-digit hour
(`getnum` non-fixed for the `15` chunk), an optional fractional second
with a period *or comma* separator (the input may carry a fraction even
though the layout has none), and a `Z` or `±hh:mm` zone whose offset
digits are not range-checked. -/
def parseRFC3339 (s : String) : Option Instant :=
  (read4 s.data).bind fun (y, l) =>
  (expect ('-') l).bind fun l =>
  (read2 l).bind fun (mo, l) =>
  (expect ('-') l).bind fun l =>
  (read2 l).bind fun (d, l) =>
  (expect ('T') l).bind fun l =>
  (readNum12 l).bind fun (h, l) =>
  if 24 ≤ h then none else
  (expect (':') l).bind fun l =>
  (read2 l).bind fun (mi, l) =>
  if 60 ≤ mi then none else
  (expect (':') l).bind fun l =>
  (read2 l).bind fun (sec, l) =>
  if 60 ≤ sec then none else
  match readFrac true l with
  | (ns, l) =>
    (parseZone l).bind fun off =>
    if mo < 1 ∨ 12 < mo then none else
    if d < 1 ∨ daysInMonth (y : Int) (mo : Int) < (d : Int) then none else
    some (civilInstant y mo d h mi sec ns - off * nsPerSecond)

/-- `fetch.ParseWhoopTime`: try the native layout, fall back to RFC3339. -/
def ParseWhoopTime (s : String) : Except String Instant :=
  match parseNative s with
  | some t => .ok t
  | none =>
    match parseRFC3339 s with
    | some t => .ok t
    | none => .error ("cannot parse " ++ s)

/-! ## Grammar of the two accepted timestamp shapes

The predicates below describe, purely structurally, the strings each of
the two layouts accepts and the instant such a string denotes.  They are
the specification side of the `ParseWhoopTime` claim: the parser above is
the translation of the source, and the characterization theorem relates
the two. -/

/-- An optional fractional-second field: either absent (zero nanoseconds)
or a separator followed by a nonempty digit run denoting `fracNanos`.
The native layout also accepts a comma separator; RFC3339 only a period. -/
def FracShape (allowComma : Bool) (fpart : List Char) (ns : Nat) : Prop :=
  (fpart = [] ∧ ns = 0) ∨
  (∃ sep ds, fpart = sep :: ds ∧
    (sep = ('.') ∨ (allowComma = true ∧ sep = (','))) ∧
    ds ≠ [] ∧ (∀ c ∈ ds, c.isDigit = true) ∧ ns = fracNanos ds)

/-- The zone suffix of an RFC3339 string as Go's generic parser accepts
it: `Z` (offset 0) or `±hh:mm` with unchecked digit values, in seconds
east of UTC. -/
def ZoneShape (zpart : List Char) (off : Int) : Prop :=
  (zpart = [('Z')] ∧ off = 0) ∨
  (∃ sg h1 h2 m1 m2, zpart = [sg, h1, h2, (':'), m1, m2] ∧
    (sg = ('+') ∨ sg = ('-')) ∧
    h1.isDigit = true ∧ h2.isDigit = true ∧ m1.isDigit = true ∧ m2.isDigit = true ∧
    off = (if sg = ('-') then -1 else 1) * ((val2 h1 h2 : Int) * 60 + (val2 m1 m2 : Int)) * 60)

/-- A string of the provider's native layout `2006-01-02T15:04:05.999Z`
as Go parses it (one- or two-digit hour, optional period- or
comma-separated fraction, literal trailing `Z`, in-range fields), and the
UTC instant it denotes. -/
def NativeShape (s : String) (t : Instant) : Prop :=
  ∃ (y1 y2 y3 y4 M1 M2 D1 D2 : Char) (hpart : List Char) (m1 m2 s1 s2 : Char)
    (fpart : List Char) (hv ns : Nat),
    s.data = [y1, y2, y3, y4, ('-'), M1, M2, ('-'), D1, D2, ('T')] ++ hpart ++
      [(':'), m1, m2, (':'), s1, s2] ++ fpart ++ [('Z')] ∧
    y1.isDigit = true ∧ y2.isDigit = true ∧ y3.isDigit = true ∧ y4.isDigit = true ∧
    M1.isDigit = true ∧ M2.isDigit = true ∧ D1.isDigit = true ∧ D2.isDigit = true ∧
    m1.isDigit = true ∧ m2.isDigit = true ∧ s1.isDigit = true ∧ s2.isDigit = true ∧
    ((∃ a, hpart = [a] ∧ a.isDigit = true ∧ hv = dval a) ∨
     (∃ a b, hpart = [a, b] ∧ a.isDigit = true ∧ b.isDigit = true ∧ hv = val2 a b)) ∧
    hv < 24 ∧ val2 m1 m2 < 60 ∧ val2 s1 s2 < 60 ∧
    FracShape true fpart ns ∧
    1 ≤ val2 M1 M2 ∧ val2 M1 M2 ≤ 12 ∧ 1 ≤ val2 D1 D2 ∧
    (val2 D1 D2 : Int) ≤ daysInMonth (val4 y1 y2 y3 y4 : Int) (val2 M1 M2 : Int) ∧
    t = civilInstant (val4 y1 y2 y3 y4) (val2 M1 M2) (val2 D1 D2) hv
      (val2 m1 m2) (val2 s1 s2) ns

/-- An RFC3339 string as Go's `time.Parse` actually accepts it — the
lenient generic-layout language: one- or two-digit hour, optional
period- or comma-separated fraction, `Z` or `±hh:mm` zone with unchecked
offset values, in-range date and clock fields — and the instant it
denotes. -/
def RFCShape (s : String) (t : Instant) : Prop :=
  ∃ (y1 y2 y3 y4 M1 M2 D1 D2 : Char) (hpart : List Char) (m1 m2 s1 s2 : Char)
    (fpart zpart : List Char) (hv ns : Nat) (off : Int),
    s.data = [y1, y2, y3, y4, ('-'), M1, M2, ('-'), D1, D2, ('T')] ++ hpart ++
      [(':'), m1, m2, (':'), s1, s2] ++ fpart ++ zpart ∧
    y1.isDigit = true ∧ y2.isDigit = true ∧ y3.isDigit = true ∧ y4.isDigit = true ∧
    M1.isDigit = true ∧ M2.isDigit = true ∧ D1.isDigit = true ∧ D2.isDigit = true ∧
    m1.isDigit = true ∧ m2.isDigit = true ∧ s1.isDigit = true ∧ s2.isDigit = true ∧
    ((∃ a, hpart = [a] ∧ a.isDigit = true ∧ hv = dval a) ∨
     (∃ a b, hpart = [a, b] ∧ a.isDigit = true ∧ b.isDigit = true ∧ hv = val2 a b)) ∧
    hv < 24 ∧ val2 m1 m2 < 60 ∧ val2 s1 s2 < 60 ∧
    FracShape true fpart ns ∧
    ZoneShape zpart off ∧
    1 ≤ val2 M1 M2 ∧ val2 M1 M2 ≤ 12 ∧ 1 ≤ val2 D1 D2 ∧
    (val2 D1 D2 : Int) ≤ daysInMonth (val4 y1 y2 y3 y4 : Int) (val2 M1 M2 : Int) ∧
    t = civilInstant (val4 y1 y2 y3 y4) (val2 M1 M2) (val2 D1 D2) hv
      (val2 m1 m2) (val2 s1 s2) ns - off * nsPerSecond

/-! ## Day aggregation (`GetDayData`) -/

/-- `time.Date (date.Year(), date.Month(), date.Day(), 0, 0, 0, 0, time.UTC)`:
the UTC-midnight start of the queried calendar day (`day` in `GetDayData`). -/
def dayOf (date : GoTime) : Instant := mkUTCDate (displayedCivil date)

/-- The `cycleEnd` computation of `GetDayData`: the parsed cycle end when
the `end` field is nonempty and parses, else `nextDay` (an unparsable end
is silently ignored — the parse error is dropped by the `if ... err == nil`
pattern). -/
def resolveCycleEnd (cy : Cycle) (nextDay : Instant) : Instant :=
  if cy.endStr ≠ "" then
    match ParseWhoopTime cy.endStr with
    | .ok t => t
    | .error _ => nextDay
  else nextDay

/-- `fetch.DayData`. -/
structure DayData where
  date : Instant
  cycle : Option Cycle
  recovery : Option Recovery
  sleeps : List Sleep
  workouts : List Workout
  deriving DecidableEq, Repr

/-- The requests `GetDayData` issues, grouped per resource endpoint. -/
structure DayTrace where
  cycleReqs : List Request
  recoveryReqs : List Request
  sleepReqs : List Request
  workoutReqs : List Request
  deriving DecidableEq, Repr

/-- `fetch.GetDayData`.  The result is the trace of issued requests, the
returned `DayData`, and the returned error (`none` for Go's `nil`); the
outer `none` means some pagination loop ran out of fuel.

`day` is `time.Date (date.Year(), date.Month(), date.Day(), 0, 0, 0, 0,
time.UTC)` and `nextDay` is `day.AddDate (0, 0, 1)`, which on a UTC
midnight is exactly one 86400-second day later. -/
def GetDayData (c : Client) (date : GoTime) (fuel : Nat) :
    Option (DayTrace × DayData × Option String) :=
  let day := dayOf date
  let nextDay := day + nsPerDay
  let data0 : DayData := ⟨day, none, none, [], []⟩
  match GetCycles c day nextDay fuel with
  | none => none
  | some (tc, .error e) => some (⟨tc, [], [], []⟩, data0, some e)
  | some (tc, .ok cycles) =>
    match cycles with
    | [] => some (⟨tc, [], [], []⟩, data0, none)
    | cycle :: _ =>
      -- Use the first (most recent) cycle for the day.
      let data1 : DayData := { data0 with cycle := some cycle }
      match ParseWhoopTime cycle.start with
      | .error e => some (⟨tc, [], [], []⟩, data1, some ("parse cycle start: " ++ e))
      | .ok cycleStart =>
        -- default if cycle hasn't ended yet; an unparsable End is ignored
        let cycleEnd := resolveCycleEnd cycle nextDay
        match GetRecoveries c cycleStart cycleEnd fuel,
              GetSleeps c (cycleStart - 24 * nsPerHour) cycleEnd fuel,
              GetWorkouts c cycleStart cycleEnd fuel with
        | some (tr, rres), some (ts, sres), some (tw, wres) =>
          let trace : DayTrace := ⟨tc, tr, ts, tw⟩
          match rres with
          | .error e => some (trace, data1, some e)
          | .ok recs =>
            match sres with
            | .error e => some (trace, data1, some e)
            | .ok ss =>
              match wres with
              | .error e => some (trace, data1, some e)
              | .ok ws =>
                -- Pick the recovery whose cycle_id matches this cycle.
                some (trace,
                  { data1 with
                      recovery := recs.find? (fun r => r.cycleId == cycle.id),
                      sleeps := ss,
                      workouts := ws },
                  none)
        | _, _, _ => none

/-! ## Concrete fixtures (used by witnesses and counterexamples) -/

/-- An endpoint that always answers 404 (`client.ErrNotFound`). -/
def nfGet {α : Type} : Request → GetResult α := fun _ => .notFound

/-- A client whose every endpoint answers 404. -/
def nfClient : Client := ⟨nfGet, nfGet, nfGet, nfGet⟩

/-- 2026-02-20, 03:00 UTC, as an aggregation input date. -/
def wDate : GoTime := ⟨daysFromCivil 2026 2 20 * nsPerDay + 3 * nsPerHour, 0⟩

/-- A cycle for 2026-02-20 starting 07:15 UTC with no end yet. -/
def wCycle : Cycle := ⟨9, 7, "", "", "2026-02-20T07:15:00.000Z", "", "UTC", "SCORED"⟩

/-- A cycle endpoint answering a single one-cycle page. -/
def oneCycleGet : Request → GetResult Cycle := fun _ => .okBody ⟨[wCycle], ""⟩

/-- Client: one cycle, everything else empty. -/
def oneCycleClient : Client := ⟨oneCycleGet, nfGet, nfGet, nfGet⟩

/-- Recovery records pointing at cycles 5 and 9 (the spec's selection
scenario). -/
def rec5 : Recovery := ⟨5, "s5", 7, "", "", "SCORED"⟩

def rec9 : Recovery := ⟨9, "s9", 7, "", "", "SCORED"⟩

/-- A recovery endpoint answering a single page `[rec5, rec9]`. -/
def recGet : Request → GetResult Recovery := fun _ => .okBody ⟨[rec5, rec9], ""⟩

/-- Client: one cycle (id 9) plus the two-record recovery list. -/
def recClient : Client := ⟨oneCycleGet, recGet, nfGet, nfGet⟩

/-- Client whose recovery endpoint fails with a transport error. -/
def failRecClient : Client := ⟨oneCycleGet, fun _ => .fail ("boom"), nfGet, nfGet⟩

/-- Two cycles spread over a two-page response. -/
def cycA : Cycle := ⟨1, 7, "", "", "", "", "", "SCORED"⟩

def cycB : Cycle := ⟨2, 7, "", "", "", "", "", "SCORED"⟩

/-- A cycle endpoint serving page 1 (with continuation token) to a
token-less request and page 2 (final) to the token-carrying request. -/
def pagGet : Request → GetResult Cycle := fun r =>
  match r.token with
  | none => .okBody ⟨[cycA], "token2"⟩
  | some t => if t = "token2" then .okBody ⟨[cycB], ""⟩ else .fail ("unexpected token")

/-- A recovery record for the mid-pagination-404 scenario. -/
def c6rec : Recovery := ⟨9, "s", 7, "", "", "SCORED"⟩

/-- A recovery endpoint whose first page succeeds with a continuation
token and whose second page answers 404. -/
def c6get : Request → GetResult Recovery := fun r =>
  match r.token with
  | none => .okBody ⟨[c6rec], "t2"⟩
  | some _ => .notFound

/-- A cycle whose start parses but whose end field is unparsable. -/
def c7cycle : Cycle := ⟨9, 7, "", "", "2026-02-20T07:15:00.000Z", "garbage", "UTC", "SCORED"⟩

/-- Client serving `c7cycle`; all sub-resources empty via 404. -/
def c7client : Client := ⟨fun _ => .okBody ⟨[c7cycle], ""⟩, nfGet, nfGet, nfGet⟩

/-- 2026-02-20 midnight UTC as an input date. -/
def c7date : GoTime := ⟨daysFromCivil 2026 2 20 * nsPerDay, 0⟩

/-- The UTC-midnight instant of 2026-02-20. -/
def c7day : Instant := daysFromCivil 2026 2 20 * nsPerDay

/-- The parsed start of `c7cycle` / `wCycle`: 2026-02-20T07:15:00Z. -/
def c7cs : Instant := civilInstant 2026 2 20 7 15 0 0

/-- A cycle whose start field is unparsable. -/
def badStartCycle : Cycle := ⟨3, 7, "", "", "not-a-date", "", "", "PENDING"⟩

/-- Client serving `badStartCycle`. -/
def badStartClient : Client := ⟨fun _ => .okBody ⟨[badStartCycle], ""⟩, nfGet, nfGet, nfGet⟩

/-- A client whose every endpoint fails with the same transport error. -/
def failClient : Client :=
  ⟨fun _ => .fail ("boom"), fun _ => .fail ("boom"),
   fun _ => .fail ("boom"), fun _ => .fail ("boom")⟩

/-- A second input carrying the same displayed calendar date as `c7date`
but a different time of day. -/
def c10date2 : GoTime :=
  ⟨daysFromCivil 2026 2 20 * nsPerDay + 5 * nsPerHour + 30 * nsPerMinute, 0⟩

/-- Agreement up to error text: both sides issued the same requests and
either both succeeded with the same records or both failed. -/
def resultsAgree {α : Type} :
    Option (List Request × Except String (List α)) →
    Option (List Request × Except String (List α)) → Prop
  | none, none => True
  | some (r1, .ok l1), some (r2, .ok l2) => r1 = r2 ∧ l1 = l2
  | some (r1, .error _), some (r2, .error _) => r1 = r2
  | _, _ => False

end Whoop

namespace Whoop

/-! ## Helper lemmas -/

/-- Every request a pagination loop issues carries the window it was
started with. -/
theorem fetchLoop_window {α : Type} (get : Request → GetResult α) (path : String)
    (s e : Instant) :
    ∀ (fuel : Nat) (acc : List α) (tok : Option String) (reqs : List Request)
      (res : Except String (List α)),
      fetchLoop get path s e fuel acc tok = some (reqs, res) →
      ∀ r ∈ reqs, r.rstart = s ∧ r.rend = e := by
  intro fuel
  induction fuel with
  | zero =>
    intro acc tok reqs res h
    simp [fetchLoop] at h
  | succ n ih =>
    intro acc tok reqs res h r hr
    simp only [fetchLoop] at h
    split at h
    · simp only [Option.some.injEq, Prod.mk.injEq] at h
      obtain ⟨rfl, -⟩ := h
      simp only [List.mem_singleton] at hr
      subst hr
      exact ⟨rfl, rfl⟩
    · simp only [Option.some.injEq, Prod.mk.injEq] at h
      obtain ⟨rfl, -⟩ := h
      simp only [List.mem_singleton] at hr
      subst hr
      exact ⟨rfl, rfl⟩
    · simp only [Option.some.injEq, Prod.mk.injEq] at h
      obtain ⟨rfl, -⟩ := h
      simp only [List.mem_singleton] at hr
      subst hr
      exact ⟨rfl, rfl⟩
    · split at h
      · simp only [Option.some.injEq, Prod.mk.injEq] at h
        obtain ⟨rfl, -⟩ := h
        simp only [List.mem_singleton] at hr
        subst hr
        exact ⟨rfl, rfl⟩
      · split at h
        · exact absurd h (by simp)
        · rename_i reqs' res' heq
          simp only [Option.some.injEq, Prod.mk.injEq] at h
          obtain ⟨rfl, -⟩ := h
          rcases List.mem_cons.mp hr with rfl | hmem
          · exact ⟨rfl, rfl⟩
          · exact ih _ _ _ _ heq r hmem

/-- Window propagation for `fetchPaginated`. -/
theorem fetchPaginated_window {α : Type} (get : Request → GetResult α)
    (path : String) (s e : Instant) (fuel : Nat) (reqs : List Request)
    (res : Except String (List α))
    (h : fetchPaginated get path s e fuel = some (reqs, res)) :
    ∀ r ∈ reqs, r.rstart = s ∧ r.rend = e :=
  fetchLoop_window get path s e fuel [] none reqs res h

end Whoop

namespace Whoop

/-! ## Claim theorems -/

/-- Claim C1: for every date for which the cycle fetch returns an empty
list, `GetDayData` returns a `DayData` whose `Date` is the UTC midnight of
that calendar day, with `Cycle`/`Recovery` absent and `Sleeps`/`Workouts`
empty, and no error; no recovery, sleep or workout request is issued. -/
theorem claim1_no_cycle_short_circuit (c : Client) (date : GoTime) (fuel : Nat)
    (reqs : List Request)
    (h : GetCycles c (dayOf date) (dayOf date + nsPerDay) fuel =
      some (reqs, .ok [])) :
    GetDayData c date fuel =
      some (⟨reqs, [], [], []⟩, ⟨dayOf date, none, none, [], []⟩, none) := by
  simp only [GetDayData, h]

/-- Witness for C1: the all-404 client on 2026-02-20. -/
theorem claim1_witness :
    GetDayData nfClient wDate 1 =
      some (⟨[⟨dayOf wDate, dayOf wDate + nsPerDay, none⟩], [], [], []⟩,
        ⟨dayOf wDate, none, none, [], []⟩, none) :=
  claim1_no_cycle_short_circuit nfClient wDate 1
    [⟨dayOf wDate, dayOf wDate + nsPerDay, none⟩] (by rfl)

/-- Claim C3: on a fully successful aggregation the attached `Recovery` is
the first record of the fetched recovery list whose `cycle_id` equals the
selected cycle's id (`List.find?`); a returned `some` is such a first
match, and `none` holds exactly when no record matches — with no error
either way. -/
theorem claim3_recovery_selection (c : Client) (date : GoTime) (fuel : Nat)
    (tc tr ts tw : List Request) (cy : Cycle) (rest : List Cycle) (cs : Instant)
    (recs : List Recovery) (ss : List Sleep) (ws : List Workout)
    (hc : GetCycles c (dayOf date) (dayOf date + nsPerDay) fuel =
      some (tc, .ok (cy :: rest)))
    (hst : ParseWhoopTime cy.start = .ok cs)
    (hr : GetRecoveries c cs (resolveCycleEnd cy (dayOf date + nsPerDay)) fuel =
      some (tr, .ok recs))
    (hsl : GetSleeps c (cs - 24 * nsPerHour)
      (resolveCycleEnd cy (dayOf date + nsPerDay)) fuel = some (ts, .ok ss))
    (hw : GetWorkouts c cs (resolveCycleEnd cy (dayOf date + nsPerDay)) fuel =
      some (tw, .ok ws)) :
    GetDayData c date fuel =
      some (⟨tc, tr, ts, tw⟩,
        ⟨dayOf date, some cy, recs.find? (fun r => r.cycleId == cy.id), ss, ws⟩,
        none) ∧
    (∀ r, recs.find? (fun x => x.cycleId == cy.id) = some r →
      r.cycleId = cy.id ∧
      ∃ pre post, recs = pre ++ r :: post ∧ ∀ x ∈ pre, x.cycleId ≠ cy.id) ∧
    (recs.find? (fun x => x.cycleId == cy.id) = none ↔
      ∀ x ∈ recs, x.cycleId ≠ cy.id) := by
  refine ⟨?_, ?_, ?_⟩
  · simp only [GetDayData, hc, hst, hr, hsl, hw]
  · intro r hfind
    rw [List.find?_eq_some] at hfind
    obtain ⟨hp, pre, post, rfl, hpre⟩ := hfind
    refine ⟨by simpa using hp, pre, post, rfl, ?_⟩
    intro x hx
    have := hpre x hx
    simpa using this
  · rw [List.find?_eq_none]
    constructor
    · intro hnone x hx
      have := hnone x hx
      simpa using this
    · intro hall x hx
      simpa using hall x hx

/-- Witness for C3: the spec's scenario — recovery list
`[cycle_id 5, cycle_id 9]`, selected cycle id 9 — attaches the second
record. -/
theorem claim3_witness :
    GetDayData recClient wDate 1 =
      some (⟨[⟨dayOf wDate, dayOf wDate + nsPerDay, none⟩],
             [⟨c7cs, dayOf wDate + nsPerDay, none⟩],
             [⟨c7cs - 24 * nsPerHour, dayOf wDate + nsPerDay, none⟩],
             [⟨c7cs, dayOf wDate + nsPerDay, none⟩]⟩,
        ⟨dayOf wDate, some wCycle, some rec9, [], []⟩, none) := by
  have h := claim3_recovery_selection recClient wDate 1
    [⟨dayOf wDate, dayOf wDate + nsPerDay, none⟩]
    [⟨c7cs, dayOf wDate + nsPerDay, none⟩]
    [⟨c7cs - 24 * nsPerHour, dayOf wDate + nsPerDay, none⟩]
    [⟨c7cs, dayOf wDate + nsPerDay, none⟩]
    wCycle [] c7cs [rec5, rec9] [] []
    (by rfl) (by rfl) (by rfl) (by rfl) (by rfl)
  simpa using h.1

/-- Claim C4: when a sub-fetch fails after a cycle was found, `GetDayData`
returns the first failure in the fixed order recovery, sleep, workout,
together with a `DayData` carrying only `Date` and `Cycle` — successful
sub-fetch results are discarded. -/
theorem claim4_first_failure (c : Client) (date : GoTime) (fuel : Nat)
    (tc tr ts tw : List Request) (cy : Cycle) (rest : List Cycle) (cs : Instant)
    (rres : Except String (List Recovery)) (sres : Except String (List Sleep))
    (wres : Except String (List Workout))
    (hc : GetCycles c (dayOf date) (dayOf date + nsPerDay) fuel =
      some (tc, .ok (cy :: rest)))
    (hst : ParseWhoopTime cy.start = .ok cs)
    (hr : GetRecoveries c cs (resolveCycleEnd cy (dayOf date + nsPerDay)) fuel =
      some (tr, rres))
    (hsl : GetSleeps c (cs - 24 * nsPerHour)
      (resolveCycleEnd cy (dayOf date + nsPerDay)) fuel = some (ts, sres))
    (hw : GetWorkouts c cs (resolveCycleEnd cy (dayOf date + nsPerDay)) fuel =
      some (tw, wres)) :
    (∀ e, rres = .error e →
      GetDayData c date fuel =
        some (⟨tc, tr, ts, tw⟩, ⟨dayOf date, some cy, none, [], []⟩, some e)) ∧
    (∀ recs e, rres = .ok recs → sres = .error e →
      GetDayData c date fuel =
        some (⟨tc, tr, ts, tw⟩, ⟨dayOf date, some cy, none, [], []⟩, some e)) ∧
    (∀ recs ss e, rres = .ok recs → sres = .ok ss → wres = .error e →
      GetDayData c date fuel =
        some (⟨tc, tr, ts, tw⟩, ⟨dayOf date, some cy, none, [], []⟩, some e)) := by
  refine ⟨?_, ?_, ?_⟩
  · rintro e rfl
    simp only [GetDayData, hc, hst, hr, hsl, hw]
  · rintro recs e rfl rfl
    simp only [GetDayData, hc, hst, hr, hsl, hw]
  · rintro recs ss e rfl rfl rfl
    simp only [GetDayData, hc, hst, hr, hsl, hw]

/-- Witness for C4: a failing recovery endpoint after a found cycle —
sleep and workout succeed (404 → empty) yet the returned `DayData` has
only `Date` and `Cycle` set, and the error is the recovery error. -/
theorem claim4_witness :
    GetDayData failRecClient wDate 1 =
      some (⟨[⟨dayOf wDate, dayOf wDate + nsPerDay, none⟩],
             [⟨c7cs, dayOf wDate + nsPerDay, none⟩],
             [⟨c7cs - 24 * nsPerHour, dayOf wDate + nsPerDay, none⟩],
             [⟨c7cs, dayOf wDate + nsPerDay, none⟩]⟩,
        ⟨dayOf wDate, some wCycle, none, [], []⟩,
        some ("get /recovery: boom")) :=
  (claim4_first_failure failRecClient wDate 1
    [⟨dayOf wDate, dayOf wDate + nsPerDay, none⟩]
    [⟨c7cs, dayOf wDate + nsPerDay, none⟩]
    [⟨c7cs - 24 * nsPerHour, dayOf wDate + nsPerDay, none⟩]
    [⟨c7cs, dayOf wDate + nsPerDay, none⟩]
    wCycle [] c7cs (.error ("get /recovery: boom")) (.ok []) (.ok [])
    (by rfl) (by rfl) (by rfl) (by rfl) (by rfl)).1
    ("get /recovery: boom") rfl

end Whoop

namespace Whoop

/-- Claim C5: when page 1 answers with a continuation token and page 2
without, the paginated fetch issues exactly two requests — the first with
no `nextToken`, the second carrying page 1's token — returns the two pages'
records concatenated in page order, and stops at the empty token. -/
theorem claim5_pagination_two_pages {α : Type} (get : Request → GetResult α)
    (path : String) (s e : Instant) (fuel : Nat) (p1 p2 : PaginatedResponse α)
    (h1 : get ⟨s, e, none⟩ = .okBody p1) (hne : p1.nextToken ≠ "")
    (h2 : get ⟨s, e, some p1.nextToken⟩ = .okBody p2) (h2e : p2.nextToken = "") :
    fetchPaginated get path s e (fuel + 2) =
      some ([⟨s, e, none⟩, ⟨s, e, some p1.nextToken⟩],
        .ok (p1.records ++ p2.records)) := by
  simp only [fetchPaginated, fetchLoop, h1, hne, h2, h2e, if_neg, if_pos,
    List.nil_append, if_false, ite_false]

/-- Witness for C5: the concrete two-page cycle server yields
`[cycA, cycB]` in two requests. -/
theorem claim5_witness :
    fetchPaginated pagGet ("/cycle") 0 nsPerDay 2 =
      some ([⟨0, nsPerDay, none⟩, ⟨0, nsPerDay, some ("token2")⟩],
        .ok [cycA, cycB]) :=
  claim5_pagination_two_pages pagGet ("/cycle") 0 nsPerDay 0
    ⟨[cycA], "token2"⟩ ⟨[cycB], ""⟩ (by rfl) (by decide) (by rfl) (by rfl)

/-- Counterexample to C6 as stated: when the 404 arrives on the second
page, the fetch succeeds with the records accumulated from page 1 — a
non-empty list, not the empty list the claim demands for "regardless of
which page". -/
theorem claim6_counterexample :
    fetchPaginated c6get ("/recovery") 0 nsPerDay 2 =
      some ([⟨0, nsPerDay, none⟩, ⟨0, nsPerDay, some ("t2")⟩], .ok [c6rec]) ∧
    c6get ⟨0, nsPerDay, some ("t2")⟩ = GetResult.notFound ∧
    [c6rec] ≠ ([] : List Recovery) := by
  refine ⟨by rfl, by rfl, by decide⟩

/-- Amended C6: a 404 at any page ends the pagination successfully with
the records accumulated so far and no error — the not-found condition is
never surfaced; in particular a first-page 404 yields the empty list. -/
theorem claim6_notfound_amended :
    (∀ (α : Type) (get : Request → GetResult α) (path : String)
       (s e : Instant) (fuel : Nat) (acc : List α) (tok : Option String),
       get ⟨s, e, tok⟩ = .notFound →
       fetchLoop get path s e (fuel + 1) acc tok =
         some ([⟨s, e, tok⟩], .ok acc)) ∧
    (∀ (α : Type) (get : Request → GetResult α) (path : String)
       (s e : Instant) (fuel : Nat),
       get ⟨s, e, none⟩ = .notFound →
       fetchPaginated get path s e (fuel + 1) =
         some ([⟨s, e, none⟩], .ok [])) := by
  constructor
  · intro α get path s e fuel acc tok h
    simp only [fetchLoop, h]
  · intro α get path s e fuel h
    simp only [fetchPaginated, fetchLoop, h]

/-- Witness for the amended C6 at the all-404 endpoint. -/
theorem claim6_witness :
    fetchLoop (nfGet : Request → GetResult Recovery) ("/recovery") 0 nsPerDay 3 [c6rec]
        (some ("tk")) = some ([⟨0, nsPerDay, some ("tk")⟩], .ok [c6rec]) ∧
    fetchPaginated (nfGet : Request → GetResult Recovery) ("/recovery") 0 nsPerDay 3 =
      some ([⟨0, nsPerDay, none⟩], .ok []) :=
  ⟨claim6_notfound_amended.1 Recovery nfGet ("/recovery") 0 nsPerDay 2 [c6rec]
      (some ("tk")) (by rfl),
   claim6_notfound_amended.2 Recovery nfGet ("/recovery") 0 nsPerDay 2 (by rfl)⟩

/-- Counterexample to C7 as stated: a cycle whose end timestamp is
unparsable does NOT make the aggregation fatal — `GetDayData` runs all
three sub-fetches against the day-end fallback window and returns no
error. -/
theorem claim7_counterexample :
    ParseWhoopTime c7cycle.endStr = .error ("cannot parse garbage") ∧
    c7cycle.endStr ≠ "" ∧
    GetDayData c7client c7date 1 =
      some (⟨[⟨c7day, c7day + nsPerDay, none⟩],
             [⟨c7cs, c7day + nsPerDay, none⟩],
             [⟨c7cs - 24 * nsPerHour, c7day + nsPerDay, none⟩],
             [⟨c7cs, c7day + nsPerDay, none⟩]⟩,
        ⟨c7day, some c7cycle, none, [], []⟩, none) := by
  refine ⟨by rfl, by decide, by rfl⟩

/-- Amended C7: only an unparsable cycle *start* is fatal — `GetDayData`
then returns the wrapped parse error alongside a `DayData` with `Date` and
`Cycle` set and issues no sub-fetch; an unparsable nonempty *end* merely
falls back to the UTC-midnight end of the queried day. -/
theorem claim7_amended (c : Client) (date : GoTime) (fuel : Nat)
    (tc : List Request) (cy : Cycle) (rest : List Cycle)
    (hc : GetCycles c (dayOf date) (dayOf date + nsPerDay) fuel =
      some (tc, .ok (cy :: rest))) :
    (∀ e, ParseWhoopTime cy.start = .error e →
      GetDayData c date fuel =
        some (⟨tc, [], [], []⟩, ⟨dayOf date, some cy, none, [], []⟩,
          some ("parse cycle start: " ++ e))) ∧
    (∀ e, ParseWhoopTime cy.endStr = .error e →
      resolveCycleEnd cy (dayOf date + nsPerDay) = dayOf date + nsPerDay) := by
  constructor
  · intro e he
    simp only [GetDayData, hc, he]
  · intro e he
    unfold resolveCycleEnd
    split
    · rw [he]
    · rfl

/-- Witness for the amended C7: an unparsable start aborts the aggregation
with the wrapped parse error and no sub-fetch requests. -/
theorem claim7_witness :
    GetDayData badStartClient c7date 1 =
      some (⟨[⟨c7day, c7day + nsPerDay, none⟩], [], [], []⟩,
        ⟨c7day, some badStartCycle, none, [], []⟩,
        some ("parse cycle start: cannot parse not-a-date")) :=
  (claim7_amended badStartClient c7date 1 [⟨c7day, c7day + nsPerDay, none⟩]
    badStartCycle [] (by rfl)).1 ("cannot parse not-a-date") (by rfl)

end Whoop

namespace Whoop

/-- The old `GetCycles` loop is the generic loop at path string
`"cycles"` (its error prefixes `get cycles:` / `parse cycles:` coincide
with the generic ones at that string). -/
theorem getCyclesOldLoop_eq (get : Request → GetResult Cycle) (s e : Instant) :
    ∀ (fuel : Nat) (acc : List Cycle) (tok : Option String),
      getCyclesOldLoop get s e fuel acc tok =
        fetchLoop get ("cycles") s e fuel acc tok := by
  intro fuel
  induction fuel with
  | zero => intro acc tok; rfl
  | succ n ih =>
    intro acc tok
    simp only [getCyclesOldLoop, fetchLoop, ih]
    cases get ⟨s, e, tok⟩ <;>
      first
      | rfl
      | (rename_i page
         by_cases h : page.nextToken = "" <;> simp only [h, ite_false, if_false, ite_true, if_true] <;>
           first
           | rfl
           | (rcases fetchLoop get ("cycles") s e n (acc ++ page.records)
                (some page.nextToken) with _ | ⟨reqs, r⟩ <;> rfl))

/-- The old `GetRecoveries` loop is the generic loop at `"recoveries"`. -/
theorem getRecoveriesOldLoop_eq (get : Request → GetResult Recovery) (s e : Instant) :
    ∀ (fuel : Nat) (acc : List Recovery) (tok : Option String),
      getRecoveriesOldLoop get s e fuel acc tok =
        fetchLoop get ("recoveries") s e fuel acc tok := by
  intro fuel
  induction fuel with
  | zero => intro acc tok; rfl
  | succ n ih =>
    intro acc tok
    simp only [getRecoveriesOldLoop, fetchLoop, ih]
    cases get ⟨s, e, tok⟩ <;>
      first
      | rfl
      | (rename_i page
         by_cases h : page.nextToken = "" <;> simp only [h, ite_false, if_false, ite_true, if_true] <;>
           first
           | rfl
           | (rcases fetchLoop get ("recoveries") s e n (acc ++ page.records)
                (some page.nextToken) with _ | ⟨reqs, r⟩ <;> rfl))

/-- The old `GetSleeps` loop is the generic loop at `"sleeps"`. -/
theorem getSleepsOldLoop_eq (get : Request → GetResult Sleep) (s e : Instant) :
    ∀ (fuel : Nat) (acc : List Sleep) (tok : Option String),
      getSleepsOldLoop get s e fuel acc tok =
        fetchLoop get ("sleeps") s e fuel acc tok := by
  intro fuel
  induction fuel with
  | zero => intro acc tok; rfl
  | succ n ih =>
    intro acc tok
    simp only [getSleepsOldLoop, fetchLoop, ih]
    cases get ⟨s, e, tok⟩ <;>
      first
      | rfl
      | (rename_i page
         by_cases h : page.nextToken = "" <;> simp only [h, ite_false, if_false, ite_true, if_true] <;>
           first
           | rfl
           | (rcases fetchLoop get ("sleeps") s e n (acc ++ page.records)
                (some page.nextToken) with _ | ⟨reqs, r⟩ <;> rfl))

/-- The old `GetWorkouts` loop is the generic loop at `"workouts"`. -/
theorem getWorkoutsOldLoop_eq (get : Request → GetResult Workout) (s e : Instant) :
    ∀ (fuel : Nat) (acc : List Workout) (tok : Option String),
      getWorkoutsOldLoop get s e fuel acc tok =
        fetchLoop get ("workouts") s e fuel acc tok := by
  intro fuel
  induction fuel with
  | zero => intro acc tok; rfl
  | succ n ih =>
    intro acc tok
    simp only [getWorkoutsOldLoop, fetchLoop, ih]
    cases get ⟨s, e, tok⟩ <;>
      first
      | rfl
      | (rename_i page
         by_cases h : page.nextToken = "" <;> simp only [h, ite_false, if_false, ite_true, if_true] <;>
           first
           | rfl
           | (rcases fetchLoop get ("workouts") s e n (acc ++ page.records)
                (some page.nextToken) with _ | ⟨reqs, r⟩ <;> rfl))

/-- Two runs of the generic loop that differ only in the path string used
for error messages agree on requests, on success values, and on
success-versus-failure. -/
theorem fetchLoop_path_agrees {α : Type} (get : Request → GetResult α)
    (p1 p2 : String) (s e : Instant) :
    ∀ (fuel : Nat) (acc : List α) (tok : Option String),
      resultsAgree (fetchLoop get p1 s e fuel acc tok)
        (fetchLoop get p2 s e fuel acc tok) := by
  intro fuel
  induction fuel with
  | zero => intro acc tok; simp [fetchLoop, resultsAgree]
  | succ n ih =>
    intro acc tok
    simp only [fetchLoop]
    cases hres : get ⟨s, e, tok⟩ with
    | notFound => simp [resultsAgree]
    | fail msg => simp [resultsAgree]
    | badBody msg => simp [resultsAgree]
    | okBody page =>
      by_cases htk : page.nextToken = ""
      · simp [htk, resultsAgree]
      · simp only [htk, ite_false, if_false]
        have hrec := ih (acc ++ page.records) (some page.nextToken)
        generalize hA : fetchLoop get p1 s e n (acc ++ page.records)
          (some page.nextToken) = A at hrec ⊢
        generalize hB : fetchLoop get p2 s e n (acc ++ page.records)
          (some page.nextToken) = B at hrec ⊢
        cases A with
        | none =>
          cases B with
          | none => simp [resultsAgree]
          | some p =>
            obtain ⟨r2, res2⟩ := p
            cases res2 <;> simp [resultsAgree] at hrec
        | some p =>
          obtain ⟨r1, res1⟩ := p
          cases B with
          | none => cases res1 <;> simp [resultsAgree] at hrec
          | some q =>
            obtain ⟨r2, res2⟩ := q
            cases res1 with
            | ok l1 =>
              cases res2 with
              | ok l2 =>
                obtain ⟨h1, h2⟩ := hrec
                subst h1; subst h2
                simp [resultsAgree]
              | error m2 => simp [resultsAgree] at hrec
            | error m1 =>
              cases res2 with
              | ok l2 => simp [resultsAgree] at hrec
              | error m2 =>
                simp only [resultsAgree] at hrec ⊢
                simp [hrec]

end Whoop

namespace Whoop

/-- Counterexample to C9 as stated: on a failing transport the old and new
collection functions return *different* results — the wrapped error
messages differ (`get cycles:` versus `get /cycle:`), so the (records,
error) pairs are not exactly equal. -/
theorem claim9_counterexample :
    GetCyclesOld failClient 0 nsPerDay 1 ≠ GetCycles failClient 0 nsPerDay 1 ∧
    GetCyclesOld failClient 0 nsPerDay 1 =
      some ([⟨0, nsPerDay, none⟩], .error ("get cycles: boom")) ∧
    GetCycles failClient 0 nsPerDay 1 =
      some ([⟨0, nsPerDay, none⟩], .error ("get /cycle: boom")) := by
  refine ⟨?_, rfl, rfl⟩
  intro h
  rw [show GetCyclesOld failClient 0 nsPerDay 1 =
        some ([⟨0, nsPerDay, none⟩], .error ("get cycles: boom")) from rfl,
      show GetCycles failClient 0 nsPerDay 1 =
        some ([⟨0, nsPerDay, none⟩], .error ("get /cycle: boom")) from rfl] at h
  simp only [Option.some.injEq, Prod.mk.injEq, Except.error.injEq] at h
  exact absurd h.2 (by decide)

/-- Amended C9: for every client, window and fuel, each generic collection
function issues exactly the requests its hand-specialized predecessor
issued and returns the same records on success and an error exactly when
the predecessor errored; only the error message text differs. -/
theorem claim9_equiv_amended :
    (∀ (c : Client) (s e : Instant) (fuel : Nat),
      resultsAgree (GetCyclesOld c s e fuel) (GetCycles c s e fuel)) ∧
    (∀ (c : Client) (s e : Instant) (fuel : Nat),
      resultsAgree (GetRecoveriesOld c s e fuel) (GetRecoveries c s e fuel)) ∧
    (∀ (c : Client) (s e : Instant) (fuel : Nat),
      resultsAgree (GetSleepsOld c s e fuel) (GetSleeps c s e fuel)) ∧
    (∀ (c : Client) (s e : Instant) (fuel : Nat),
      resultsAgree (GetWorkoutsOld c s e fuel) (GetWorkouts c s e fuel)) := by
  refine ⟨?_, ?_, ?_, ?_⟩
  · intro c s e fuel
    unfold GetCyclesOld GetCycles fetchPaginated
    rw [getCyclesOldLoop_eq]
    exact fetchLoop_path_agrees c.cycles ("cycles") ("/cycle") s e fuel [] none
  · intro c s e fuel
    unfold GetRecoveriesOld GetRecoveries fetchPaginated
    rw [getRecoveriesOldLoop_eq]
    exact fetchLoop_path_agrees c.recoveries ("recoveries") ("/recovery") s e fuel [] none
  · intro c s e fuel
    unfold GetSleepsOld GetSleeps fetchPaginated
    rw [getSleepsOldLoop_eq]
    exact fetchLoop_path_agrees c.sleeps ("sleeps") ("/activity/sleep") s e fuel [] none
  · intro c s e fuel
    unfold GetWorkoutsOld GetWorkouts fetchPaginated
    rw [getWorkoutsOldLoop_eq]
    exact fetchLoop_path_agrees c.workouts ("workouts") ("/activity/workout") s e fuel [] none

/-- Claim C10: on every return path of `GetDayData` the returned `Date` is
the UTC midnight built from the input date's displayed year, month and
day, and two inputs displaying the same calendar date produce identical
aggregations (the time of day is ignored). -/
theorem claim10_date_invariant :
    (∀ (c : Client) (date : GoTime) (fuel : Nat) (tr : DayTrace)
       (data : DayData) (err : Option String),
       GetDayData c date fuel = some (tr, data, err) →
       data.date = mkUTCDate (displayedCivil date)) ∧
    (∀ (c : Client) (fuel : Nat) (d1 d2 : GoTime),
       displayedCivil d1 = displayedCivil d2 →
       GetDayData c d1 fuel = GetDayData c d2 fuel) := by
  constructor
  · intro c date fuel tr data err h
    simp only [GetDayData] at h
    split at h
    · exact absurd h (by simp)
    · simp only [Option.some.injEq, Prod.mk.injEq] at h
      obtain ⟨-, rfl, -⟩ := h
      rfl
    · split at h
      · simp only [Option.some.injEq, Prod.mk.injEq] at h
        obtain ⟨-, rfl, -⟩ := h
        rfl
      · split at h
        · simp only [Option.some.injEq, Prod.mk.injEq] at h
          obtain ⟨-, rfl, -⟩ := h
          rfl
        · split at h
          · split at h
            · simp only [Option.some.injEq, Prod.mk.injEq] at h
              obtain ⟨-, rfl, -⟩ := h
              rfl
            · split at h
              · simp only [Option.some.injEq, Prod.mk.injEq] at h
                obtain ⟨-, rfl, -⟩ := h
                rfl
              · split at h
                · simp only [Option.some.injEq, Prod.mk.injEq] at h
                  obtain ⟨-, rfl, -⟩ := h
                  rfl
                · simp only [Option.some.injEq, Prod.mk.injEq] at h
                  obtain ⟨-, rfl, -⟩ := h
                  rfl
          · exact absurd h (by simp)
  · intro c fuel d1 d2 h
    have hd : dayOf d1 = dayOf d2 := by unfold dayOf; rw [h]
    simp only [GetDayData, hd]

/-- Witness for C10: a 03:00 input and a 05:30 input on 2026-02-20 yield
the same aggregation, whose `Date` is the 2026-02-20 UTC midnight. -/
theorem claim10_witness :
    (⟨dayOf wDate, none, none, [], []⟩ : DayData).date =
      mkUTCDate (displayedCivil wDate) ∧
    GetDayData nfClient wDate 1 = GetDayData nfClient c10date2 1 :=
  ⟨claim10_date_invariant.1 nfClient wDate 1
      ⟨[⟨dayOf wDate, dayOf wDate + nsPerDay, none⟩], [], [], []⟩
      ⟨dayOf wDate, none, none, [], []⟩ none (by rfl),
   claim10_date_invariant.2 nfClient 1 wDate c10date2 (by decide)⟩

end Whoop

namespace Whoop

/-- Claim C2: with a selected cycle whose start parsed to `cs`, every
recovery and workout request of the aggregation uses the window
`[cs, cycleEnd)`, every sleep request uses `[cs − 24h, cycleEnd)`, and
`cycleEnd` is the parsed cycle end when the end field is nonempty and
parseable, else the UTC-midnight end of the queried day. -/
theorem claim2_windows (c : Client) (date : GoTime) (fuel : Nat)
    (tc : List Request) (cy : Cycle) (rest : List Cycle) (cs : Instant)
    (tr : DayTrace) (data : DayData) (err : Option String)
    (hc : GetCycles c (dayOf date) (dayOf date + nsPerDay) fuel =
      some (tc, .ok (cy :: rest)))
    (hst : ParseWhoopTime cy.start = .ok cs)
    (h : GetDayData c date fuel = some (tr, data, err)) :
    (∀ r ∈ tr.recoveryReqs,
      r.rstart = cs ∧ r.rend = resolveCycleEnd cy (dayOf date + nsPerDay)) ∧
    (∀ r ∈ tr.sleepReqs,
      r.rstart = cs - 24 * nsPerHour ∧
      r.rend = resolveCycleEnd cy (dayOf date + nsPerDay)) ∧
    (∀ r ∈ tr.workoutReqs,
      r.rstart = cs ∧ r.rend = resolveCycleEnd cy (dayOf date + nsPerDay)) ∧
    (∀ t, cy.endStr ≠ "" → ParseWhoopTime cy.endStr = .ok t →
      resolveCycleEnd cy (dayOf date + nsPerDay) = t) ∧
    (cy.endStr = "" →
      resolveCycleEnd cy (dayOf date + nsPerDay) = dayOf date + nsPerDay) ∧
    (∀ e, ParseWhoopTime cy.endStr = .error e →
      resolveCycleEnd cy (dayOf date + nsPerDay) = dayOf date + nsPerDay) := by
  have hend1 : ∀ t, cy.endStr ≠ "" → ParseWhoopTime cy.endStr = .ok t →
      resolveCycleEnd cy (dayOf date + nsPerDay) = t := by
    intro t hne hok
    unfold resolveCycleEnd
    rw [if_pos hne, hok]
  have hend2 : cy.endStr = "" →
      resolveCycleEnd cy (dayOf date + nsPerDay) = dayOf date + nsPerDay := by
    intro he
    unfold resolveCycleEnd
    rw [if_neg (by simp [he])]
  have hend3 : ∀ e, ParseWhoopTime cy.endStr = .error e →
      resolveCycleEnd cy (dayOf date + nsPerDay) = dayOf date + nsPerDay := by
    intro e he
    unfold resolveCycleEnd
    split
    · rw [he]
    · rfl
  simp only [GetDayData, hc, hst] at h
  rcases hR : GetRecoveries c cs (resolveCycleEnd cy (dayOf date + nsPerDay)) fuel
    with - | ⟨trr, rres⟩
  · rw [hR] at h
    simp at h
  rcases hS : GetSleeps c (cs - 24 * nsPerHour)
      (resolveCycleEnd cy (dayOf date + nsPerDay)) fuel with - | ⟨tss, sres⟩
  · rw [hR, hS] at h
    simp at h
  rcases hW : GetWorkouts c cs (resolveCycleEnd cy (dayOf date + nsPerDay)) fuel
    with - | ⟨tww, wres⟩
  · rw [hR, hS, hW] at h
    simp at h
  rw [hR, hS, hW] at h
  have htr : tr = ⟨tc, trr, tss, tww⟩ := by
    rcases rres with e | recs
    · simp only [Option.some.injEq, Prod.mk.injEq] at h
      exact h.1.symm
    · rcases sres with e | ss
      · simp only [Option.some.injEq, Prod.mk.injEq] at h
        exact h.1.symm
      · rcases wres with e | ws
        · simp only [Option.some.injEq, Prod.mk.injEq] at h
          exact h.1.symm
        · simp only [Option.some.injEq, Prod.mk.injEq] at h
          exact h.1.symm
  subst htr
  refine ⟨?_, ?_, ?_, hend1, hend2, hend3⟩
  · exact fetchPaginated_window c.recoveries ("/recovery") _ _ fuel trr rres hR
  · exact fetchPaginated_window c.sleeps ("/activity/sleep") _ _ fuel tss sres hS
  · exact fetchPaginated_window c.workouts ("/activity/workout") _ _ fuel tww wres hW

/-- Witness for C2 on the spec's scenario: date 2026-02-20, cycle start
07:15 UTC, no end — the recovery window is `[07:15, next midnight)` and
the sleep window starts 24 hours earlier. -/
theorem claim2_witness :
    (∀ r ∈ [Request.mk c7cs (dayOf wDate + nsPerDay) none],
      r.rstart = c7cs ∧ r.rend = resolveCycleEnd wCycle (dayOf wDate + nsPerDay)) ∧
    (∀ r ∈ [Request.mk (c7cs - 24 * nsPerHour) (dayOf wDate + nsPerDay) none],
      r.rstart = c7cs - 24 * nsPerHour ∧
      r.rend = resolveCycleEnd wCycle (dayOf wDate + nsPerDay)) ∧
    resolveCycleEnd wCycle (dayOf wDate + nsPerDay) = dayOf wDate + nsPerDay := by
  have h := claim2_windows oneCycleClient wDate 1
    [⟨dayOf wDate, dayOf wDate + nsPerDay, none⟩] wCycle [] c7cs
    ⟨[⟨dayOf wDate, dayOf wDate + nsPerDay, none⟩],
     [⟨c7cs, dayOf wDate + nsPerDay, none⟩],
     [⟨c7cs - 24 * nsPerHour, dayOf wDate + nsPerDay, none⟩],
     [⟨c7cs, dayOf wDate + nsPerDay, none⟩]⟩
    ⟨dayOf wDate, some wCycle, none, [], []⟩ none
    (by rfl) (by rfl) (by rfl)
  exact ⟨h.1, h.2.1, h.2.2.2.2.1 (by rfl)⟩

end Whoop

namespace Whoop

/-! ## Characterization of the layout readers -/

theorem read2_some {l : List Char} {n : Nat} {r : List Char}
    (h : read2 l = some (n, r)) :
    ∃ c1 c2, l = c1 :: c2 :: r ∧ c1.isDigit = true ∧ c2.isDigit = true ∧
      n = val2 c1 c2 := by
  rcases l with _ | ⟨c1, _ | ⟨c2, rest⟩⟩
  · simp [read2] at h
  · simp [read2] at h
  · simp only [read2] at h
    split at h
    · rename_i hd
      simp only [Bool.and_eq_true] at hd
      simp only [Option.some.injEq, Prod.mk.injEq] at h
      obtain ⟨rfl, rfl⟩ := h
      exact ⟨c1, c2, rfl, hd.1, hd.2, rfl⟩
    · cases h

theorem read2_eval {c1 c2 : Char} (r : List Char) (h1 : c1.isDigit = true)
    (h2 : c2.isDigit = true) : read2 (c1 :: c2 :: r) = some (val2 c1 c2, r) := by
  simp [read2, h1, h2]

theorem read4_some {l : List Char} {n : Nat} {r : List Char}
    (h : read4 l = some (n, r)) :
    ∃ c1 c2 c3 c4, l = c1 :: c2 :: c3 :: c4 :: r ∧ c1.isDigit = true ∧
      c2.isDigit = true ∧ c3.isDigit = true ∧ c4.isDigit = true ∧
      n = val4 c1 c2 c3 c4 := by
  rcases l with _ | ⟨c1, _ | ⟨c2, _ | ⟨c3, _ | ⟨c4, rest⟩⟩⟩⟩
  · simp [read4] at h
  · simp [read4] at h
  · simp [read4] at h
  · simp [read4] at h
  · simp only [read4] at h
    split at h
    · rename_i hd
      simp only [Bool.and_eq_true] at hd
      simp only [Option.some.injEq, Prod.mk.injEq] at h
      obtain ⟨rfl, rfl⟩ := h
      exact ⟨c1, c2, c3, c4, rfl, hd.1.1.1, hd.1.1.2, hd.1.2, hd.2, rfl⟩
    · cases h

theorem read4_eval {c1 c2 c3 c4 : Char} (r : List Char) (h1 : c1.isDigit = true)
    (h2 : c2.isDigit = true) (h3 : c3.isDigit = true) (h4 : c4.isDigit = true) :
    read4 (c1 :: c2 :: c3 :: c4 :: r) = some (val4 c1 c2 c3 c4, r) := by
  simp [read4, h1, h2, h3, h4]

theorem readNum12_some {l : List Char} {n : Nat} {r : List Char}
    (h : readNum12 l = some (n, r)) :
    (∃ a b, l = a :: b :: r ∧ a.isDigit = true ∧ b.isDigit = true ∧
      n = val2 a b) ∨
    (∃ a, a.isDigit = true ∧ n = dval a ∧
      ((l = [a] ∧ r = []) ∨
       (∃ b rest, l = a :: b :: rest ∧ b.isDigit = false ∧ r = b :: rest))) := by
  rcases l with _ | ⟨c1, _ | ⟨c2, rest⟩⟩
  · simp [readNum12] at h
  · simp only [readNum12] at h
    split at h
    · rename_i hd
      simp only [Option.some.injEq, Prod.mk.injEq] at h
      obtain ⟨rfl, rfl⟩ := h
      exact Or.inr ⟨c1, hd, rfl, Or.inl ⟨rfl, rfl⟩⟩
    · cases h
  · simp only [readNum12] at h
    split at h
    · rename_i hd1
      split at h
      · rename_i hd2
        simp only [Option.some.injEq, Prod.mk.injEq] at h
        obtain ⟨rfl, rfl⟩ := h
        exact Or.inl ⟨c1, c2, rfl, hd1, hd2, rfl⟩
      · rename_i hd2
        simp only [Option.some.injEq, Prod.mk.injEq] at h
        obtain ⟨rfl, rfl⟩ := h
        exact Or.inr ⟨c1, hd1, rfl,
          Or.inr ⟨c2, rest, rfl, Bool.not_eq_true _ ▸ (by simpa using hd2), rfl⟩⟩
    · cases h

theorem readNum12_eval2 {a b : Char} (r : List Char) (h1 : a.isDigit = true)
    (h2 : b.isDigit = true) : readNum12 (a :: b :: r) = some (val2 a b, r) := by
  simp [readNum12, h1, h2]

theorem readNum12_eval1 {a b : Char} (r : List Char) (h1 : a.isDigit = true)
    (h2 : b.isDigit = false) : readNum12 (a :: b :: r) = some (dval a, b :: r) := by
  simp [readNum12, h1, h2]

theorem expect_some {c : Char} {l r : List Char} (h : expect c l = some r) :
    l = c :: r := by
  rcases l with _ | ⟨x, rest⟩
  · simp [expect] at h
  · simp only [expect] at h
    split at h
    · rename_i hx
      subst hx
      simp only [Option.some.injEq] at h
      rw [h]
    · cases h

theorem expect_eval (c : Char) (r : List Char) : expect c (c :: r) = some r := by
  simp [expect]

end Whoop

namespace Whoop

theorem takeWhile_all_append (p : Char → Bool) (ds r : List Char)
    (hds : ∀ c ∈ ds, p c = true)
    (hr : r = [] ∨ ∃ c rest, r = c :: rest ∧ p c = false) :
    (ds ++ r).takeWhile p = ds ∧ (ds ++ r).dropWhile p = r := by
  induction ds with
  | nil =>
    rcases hr with rfl | ⟨c, rest, rfl, hc⟩
    · simp
    · simp [List.takeWhile_cons, List.dropWhile_cons, hc]
  | cons d ds ih =>
    have hd : p d = true := hds d (by simp)
    have ih2 := ih (fun c hc => hds c (by simp [hc]))
    simp [List.takeWhile_cons, List.dropWhile_cons, hd, ih2.1, ih2.2]

theorem readFrac_some {ac : Bool} {l : List Char} {ns : Nat} {r : List Char}
    (h : readFrac ac l = (ns, r)) :
    ∃ fpart, l = fpart ++ r ∧ FracShape ac fpart ns := by
  rcases l with _ | ⟨c0, _ | ⟨c1, rest⟩⟩
  · simp only [readFrac] at h
    obtain ⟨rfl, rfl⟩ := Prod.mk.injEq .. ▸ h
    exact ⟨[], by simp, Or.inl ⟨rfl, rfl⟩⟩
  · simp only [readFrac] at h
    obtain ⟨rfl, rfl⟩ := Prod.mk.injEq .. ▸ h
    exact ⟨[], by simp, Or.inl ⟨rfl, rfl⟩⟩
  · simp only [readFrac] at h
    split at h
    · rename_i hcond
      simp only [Bool.and_eq_true, Bool.or_eq_true, decide_eq_true_eq] at hcond
      simp only [Prod.mk.injEq] at h
      obtain ⟨rfl, rfl⟩ := h
      refine ⟨c0 :: (c1 :: rest).takeWhile Char.isDigit, ?_, ?_⟩
      · simp [List.takeWhile_append_dropWhile]
      · refine Or.inr ⟨c0, (c1 :: rest).takeWhile Char.isDigit, rfl, ?_, ?_, ?_, rfl⟩
        · rcases hcond.1 with hdot | ⟨hac, hcomma⟩
          · exact Or.inl hdot
          · exact Or.inr ⟨hac, hcomma⟩
        · simp [List.takeWhile_cons, hcond.2]
        · intro c hc
          exact List.mem_takeWhile_imp hc
    · simp only [Prod.mk.injEq] at h
      obtain ⟨rfl, rfl⟩ := h
      exact ⟨[], by simp, Or.inl ⟨rfl, rfl⟩⟩

end Whoop

namespace Whoop

theorem readFrac_eval_none {ac : Bool} (l : List Char)
    (hl : ∀ c0 rest, l = c0 :: rest → c0 ≠ ('.') ∧ (ac = true → c0 ≠ (','))) :
    readFrac ac l = (0, l) := by
  rcases l with _ | ⟨c0, _ | ⟨c1, rest⟩⟩
  · rfl
  · rfl
  · have hc := hl c0 (c1 :: rest) rfl
    simp only [readFrac]
    rw [if_neg]
    simp only [Bool.and_eq_true, Bool.or_eq_true, decide_eq_true_eq, not_and, not_or]
    intro hor
    rcases hor with hdot | ⟨hac, hcomma⟩
    · exact absurd hdot hc.1
    · exact absurd hcomma (hc.2 hac)

theorem readFrac_eval_present {ac : Bool} {sep : Char} {ds r : List Char}
    (hsep : sep = ('.') ∨ (ac = true ∧ sep = (',')))
    (hds : ds ≠ []) (hdig : ∀ c ∈ ds, c.isDigit = true)
    (hr : r = [] ∨ ∃ c rest, r = c :: rest ∧ c.isDigit = false) :
    readFrac ac (sep :: (ds ++ r)) = (fracNanos ds, r) := by
  rcases ds with _ | ⟨d, ds'⟩
  · exact absurd rfl hds
  have hd : d.isDigit = true := hdig d (by simp)
  have htw := takeWhile_all_append Char.isDigit (d :: ds') r hdig hr
  simp only [List.cons_append] at htw ⊢
  simp only [readFrac]
  rw [if_pos]
  · rw [htw.1, htw.2]
  · simp only [Bool.and_eq_true, Bool.or_eq_true, decide_eq_true_eq]
    refine ⟨?_, hd⟩
    rcases hsep with hdot | ⟨hac, hcomma⟩
    · exact Or.inl hdot
    · exact Or.inr (by simp [hac, hcomma])

theorem parseZone_some {l : List Char} {off : Int} (h : parseZone l = some off) :
    ZoneShape l off := by
  rcases l with _ | ⟨a, _ | ⟨b, _ | ⟨c, _ | ⟨d, _ | ⟨e, _ | ⟨f, _ | ⟨g, tail⟩⟩⟩⟩⟩⟩⟩
  · simp [parseZone] at h
  · simp only [parseZone] at h
    split at h
    · rename_i hz
      subst hz
      simp only [Option.some.injEq] at h
      exact Or.inl ⟨rfl, h.symm⟩
    · cases h
  · simp [parseZone] at h
  · simp [parseZone] at h
  · simp [parseZone] at h
  · simp [parseZone] at h
  · simp only [parseZone] at h
    split at h
    · rename_i hcond
      obtain ⟨hcl, hsg, h1, h2, h3, h4⟩ := hcond
      simp only [Option.some.injEq] at h
      subst hcl
      exact Or.inr ⟨a, b, c, e, f, rfl, hsg, h1, h2, h3, h4, h.symm⟩
    · cases h
  · simp [parseZone] at h

theorem parseZone_eval_z : parseZone [('Z')] = some 0 := by
  simp [parseZone]

theorem parseZone_eval_off {sg h1 h2 m1 m2 : Char}
    (hsg : sg = ('+') ∨ sg = ('-'))
    (hd1 : h1.isDigit = true) (hd2 : h2.isDigit = true)
    (hd3 : m1.isDigit = true) (hd4 : m2.isDigit = true) :
    parseZone [sg, h1, h2, (':'), m1, m2] =
      some ((if sg = ('-') then -1 else 1) *
        ((val2 h1 h2 : Int) * 60 + (val2 m1 m2 : Int)) * 60) := by
  simp only [parseZone]
  rw [if_pos (by refine ⟨?_, hsg, hd1, hd2, hd3, hd4⟩; trivial)]

end Whoop

namespace Whoop

theorem parseNative_sound {s : String} {t : Instant} (h : NativeShape s t) :
    parseNative s = some t := by
  obtain ⟨y1, y2, y3, y4, M1, M2, D1, D2, hpart, m1, m2, s1, s2, fpart, hv, ns,
    hdata, hy1, hy2, hy3, hy4, hM1, hM2, hD1, hD2, hm1, hm2, hs1, hs2,
    hhour, hhlt, hmlt, hslt, hfs, hmo1, hmo2, hd1, hd2, ht⟩ := h
  have hmonth : ¬(val2 M1 M2 < 1 ∨ 12 < val2 M1 M2) := by
    simp only [not_or, not_lt]
    exact ⟨hmo1, hmo2⟩
  have hday : ¬(val2 D1 D2 < 1 ∨
      daysInMonth (val4 y1 y2 y3 y4 : Int) (val2 M1 M2 : Int) < (val2 D1 D2 : Int)) := by
    simp only [not_or, not_lt]
    exact ⟨hd1, hd2⟩
  have hfr : readFrac true (fpart ++ [('Z')]) = (ns, [('Z')]) := by
    rcases hfs with ⟨rfl, rfl⟩ | ⟨sep, ds, rfl, hsep, hne, hdig, rfl⟩
    · rfl
    · have := @readFrac_eval_present true sep ds [('Z')]
        (by rcases hsep with hs | ⟨-, hs⟩
            · exact Or.inl hs
            · exact Or.inr ⟨rfl, hs⟩)
        hne hdig (Or.inr ⟨('Z'), [], rfl, by decide⟩)
      simpa using this
  rcases hhour with ⟨a, rfl, ha, rfl⟩ | ⟨a, b, rfl, ha, hb, rfl⟩
  · have hdata2 : s.data = y1 :: y2 :: y3 :: y4 :: ('-') :: M1 :: M2 :: ('-') ::
        D1 :: D2 :: ('T') :: a :: (':') :: m1 :: m2 :: (':') :: s1 :: s2 ::
        (fpart ++ [('Z')]) := by
      rw [hdata]
      simp
    unfold parseNative
    rw [hdata2, read4_eval _ hy1 hy2 hy3 hy4, Option.some_bind]
    try dsimp only
    rw [expect_eval, Option.some_bind, read2_eval _ hM1 hM2, Option.some_bind]
    try dsimp only
    rw [expect_eval, Option.some_bind, read2_eval _ hD1 hD2, Option.some_bind]
    try dsimp only
    rw [expect_eval, Option.some_bind,
      readNum12_eval1 _ ha (by decide : Char.isDigit (':') = false),
      Option.some_bind]
    try dsimp only
    rw [if_neg (not_le.mpr hhlt), expect_eval, Option.some_bind,
      read2_eval _ hm1 hm2, Option.some_bind]
    try dsimp only
    rw [if_neg (not_le.mpr hmlt), expect_eval, Option.some_bind,
      read2_eval _ hs1 hs2, Option.some_bind]
    try dsimp only
    rw [if_neg (not_le.mpr hslt), hfr]
    try dsimp only
    rw [expect_eval, Option.some_bind]
    try dsimp only
    rw [if_neg (by simp : ¬(([] : List Char) ≠ [])), if_neg hmonth, if_neg hday,
      ht]
  · have hdata2 : s.data = y1 :: y2 :: y3 :: y4 :: ('-') :: M1 :: M2 :: ('-') ::
        D1 :: D2 :: ('T') :: a :: b :: (':') :: m1 :: m2 :: (':') :: s1 :: s2 ::
        (fpart ++ [('Z')]) := by
      rw [hdata]
      simp
    unfold parseNative
    rw [hdata2, read4_eval _ hy1 hy2 hy3 hy4, Option.some_bind]
    try dsimp only
    rw [expect_eval, Option.some_bind, read2_eval _ hM1 hM2, Option.some_bind]
    try dsimp only
    rw [expect_eval, Option.some_bind, read2_eval _ hD1 hD2, Option.some_bind]
    try dsimp only
    rw [expect_eval, Option.some_bind, readNum12_eval2 _ ha hb, Option.some_bind]
    try dsimp only
    rw [if_neg (not_le.mpr hhlt), expect_eval, Option.some_bind,
      read2_eval _ hm1 hm2, Option.some_bind]
    try dsimp only
    rw [if_neg (not_le.mpr hmlt), expect_eval, Option.some_bind,
      read2_eval _ hs1 hs2, Option.some_bind]
    try dsimp only
    rw [if_neg (not_le.mpr hslt), hfr]
    try dsimp only
    rw [expect_eval, Option.some_bind]
    try dsimp only
    rw [if_neg (by simp : ¬(([] : List Char) ≠ [])), if_neg hmonth, if_neg hday,
      ht]

end Whoop

namespace Whoop

set_option maxHeartbeats 2000000 in
theorem parseNative_complete {s : String} {t : Instant}
    (h : parseNative s = some t) : NativeShape s t := by
  unfold parseNative at h
  rw [Option.bind_eq_some] at h
  obtain ⟨⟨yv, l1⟩, hr4, h⟩ := h
  try dsimp only at h
  rw [Option.bind_eq_some] at h
  obtain ⟨l2, he1, h⟩ := h
  try dsimp only at h
  rw [Option.bind_eq_some] at h
  obtain ⟨⟨mov, l3⟩, hr2a, h⟩ := h
  try dsimp only at h
  rw [Option.bind_eq_some] at h
  obtain ⟨l4, he2, h⟩ := h
  try dsimp only at h
  rw [Option.bind_eq_some] at h
  obtain ⟨⟨dv, l5⟩, hr2b, h⟩ := h
  try dsimp only at h
  rw [Option.bind_eq_some] at h
  obtain ⟨l6, he3, h⟩ := h
  try dsimp only at h
  rw [Option.bind_eq_some] at h
  obtain ⟨⟨hv, l7⟩, hr12, h⟩ := h
  try dsimp only at h
  by_cases hhle : 24 ≤ hv
  · rw [if_pos hhle] at h
    exact Option.noConfusion h
  rw [if_neg hhle] at h
  rw [Option.bind_eq_some] at h
  obtain ⟨l8, he4, h⟩ := h
  try dsimp only at h
  rw [Option.bind_eq_some] at h
  obtain ⟨⟨miv, l9⟩, hr2c, h⟩ := h
  try dsimp only at h
  by_cases hmle : 60 ≤ miv
  · rw [if_pos hmle] at h
    exact Option.noConfusion h
  rw [if_neg hmle] at h
  rw [Option.bind_eq_some] at h
  obtain ⟨l10, he5, h⟩ := h
  try dsimp only at h
  rw [Option.bind_eq_some] at h
  obtain ⟨⟨sv, l11⟩, hr2d, h⟩ := h
  try dsimp only at h
  by_cases hsle : 60 ≤ sv
  · rw [if_pos hsle] at h
    exact Option.noConfusion h
  rw [if_neg hsle] at h
  rcases hfr : readFrac true l11 with ⟨nsv, l12⟩
  rw [hfr] at h
  try dsimp only at h
  rw [Option.bind_eq_some] at h
  obtain ⟨l13, heZ, h⟩ := h
  try dsimp only at h
  by_cases hl13 : l13 ≠ []
  · rw [if_pos hl13] at h
    exact Option.noConfusion h
  rw [if_neg hl13] at h
  by_cases hmor : mov < 1 ∨ 12 < mov
  · rw [if_pos hmor] at h
    exact Option.noConfusion h
  rw [if_neg hmor] at h
  by_cases hdor : dv < 1 ∨ daysInMonth (yv : Int) (mov : Int) < (dv : Int)
  · rw [if_pos hdor] at h
    exact Option.noConfusion h
  rw [if_neg hdor] at h
  simp only [Option.some.injEq] at h
  obtain ⟨y1, y2, y3, y4, hsd, hy1, hy2, hy3, hy4, hyv⟩ := read4_some hr4
  have he1b := expect_some he1
  obtain ⟨M1, M2, hl2, hM1, hM2, hmov⟩ := read2_some hr2a
  have he2b := expect_some he2
  obtain ⟨D1, D2, hl4, hD1, hD2, hdv⟩ := read2_some hr2b
  have he3b := expect_some he3
  have he4b := expect_some he4
  obtain ⟨m1c, m2c, hl8, hm1, hm2, hmiv⟩ := read2_some hr2c
  have he5b := expect_some he5
  obtain ⟨s1c, s2c, hl10, hs1, hs2, hsv⟩ := read2_some hr2d
  obtain ⟨fpart, hl11, hfs⟩ := readFrac_some hfr
  have heZb := expect_some heZ
  have hl13b : l13 = [] := not_not.mp hl13
  have hhlt : hv < 24 := not_le.mp hhle
  have hmlt : miv < 60 := not_le.mp hmle
  have hslt : sv < 60 := not_le.mp hsle
  rw [not_or] at hmor hdor
  have hmo1 : 1 ≤ mov := not_lt.mp hmor.1
  have hmo2 : mov ≤ 12 := not_lt.mp hmor.2
  have hd1 : 1 ≤ dv := not_lt.mp hdor.1
  have hd2 : (dv : Int) ≤ daysInMonth (yv : Int) (mov : Int) := not_lt.mp hdor.2
  subst hyv hmov hdv hmiv hsv
  subst hl13b heZb hl11 hl10 he5b hl8 he4b
  rcases readNum12_some hr12 with ⟨a, b, hl6, hA, hB, hhv⟩ |
    ⟨a, hA, hhv, ⟨hl6, hl7⟩ | ⟨b, rest, hl6, hB, hl7⟩⟩
  · subst hhv hl6 he3b hl4 he2b hl2 he1b
    refine ⟨y1, y2, y3, y4, M1, M2, D1, D2, [a, b], m1c, m2c, s1c, s2c, fpart,
      val2 a b, nsv, ?_, hy1, hy2, hy3, hy4, hM1, hM2, hD1, hD2, hm1, hm2,
      hs1, hs2, Or.inr ⟨a, b, rfl, hA, hB, rfl⟩, hhlt, hmlt, hslt, hfs,
      hmo1, hmo2, hd1, hd2, h.symm⟩
    rw [hsd]
    simp
  · exact List.noConfusion hl7
  · injection hl7 with hb hrest
    subst hb hrest hhv hl6 he3b hl4 he2b hl2 he1b
    refine ⟨y1, y2, y3, y4, M1, M2, D1, D2, [a], m1c, m2c, s1c, s2c, fpart,
      dval a, nsv, ?_, hy1, hy2, hy3, hy4, hM1, hM2, hD1, hD2, hm1, hm2,
      hs1, hs2, Or.inl ⟨a, rfl, hA, rfl⟩, hhlt, hmlt, hslt, hfs,
      hmo1, hmo2, hd1, hd2, h.symm⟩
    rw [hsd]
    simp

end Whoop

namespace Whoop

theorem parseRFC3339_sound {s : String} {t : Instant} (h : RFCShape s t) :
    parseRFC3339 s = some t := by
  obtain ⟨y1, y2, y3, y4, M1, M2, D1, D2, hpart, m1c, m2c, s1c, s2c, fpart, zpart,
    hv, ns, off, hdata, hy1, hy2, hy3, hy4, hM1, hM2, hD1, hD2, hm1, hm2, hs1, hs2,
    hhour, hhlt, hmlt, hslt, hfs, hzs, hmo1, hmo2, hd1, hd2, ht⟩ := h
  have hmonth : ¬(val2 M1 M2 < 1 ∨ 12 < val2 M1 M2) := by
    simp only [not_or, not_lt]
    exact ⟨hmo1, hmo2⟩
  have hday : ¬(val2 D1 D2 < 1 ∨
      daysInMonth (val4 y1 y2 y3 y4 : Int) (val2 M1 M2 : Int) < (val2 D1 D2 : Int)) := by
    simp only [not_or, not_lt]
    exact ⟨hd1, hd2⟩
  have hzhead : zpart = [] ∨ ∃ c rest, zpart = c :: rest ∧ c.isDigit = false := by
    rcases hzs with ⟨rfl, -⟩ | ⟨sg, a1, a2, b1, b2, rfl, hsg, -⟩
    · exact Or.inr ⟨('Z'), [], rfl, by decide⟩
    · rcases hsg with rfl | rfl
      · exact Or.inr ⟨('+'), _, rfl, by decide⟩
      · exact Or.inr ⟨('-'), _, rfl, by decide⟩
  have hznosep : ∀ c0 rest, zpart = c0 :: rest →
      c0 ≠ ('.') ∧ ((true : Bool) = true → c0 ≠ (',')) := by
    intro c0 rest hz
    rcases hzs with ⟨hzl, -⟩ | ⟨sg, a1, a2, b1, b2, hzl, hsg, -⟩
    · rw [hzl] at hz
      injection hz with hc hzrest
      subst hc
      exact ⟨by decide, fun _ => by decide⟩
    · rw [hzl] at hz
      injection hz with hc hzrest
      subst hc
      rcases hsg with rfl | rfl
      · exact ⟨by decide, fun _ => by decide⟩
      · exact ⟨by decide, fun _ => by decide⟩
  have hfr : readFrac true (fpart ++ zpart) = (ns, zpart) := by
    rcases hfs with ⟨rfl, rfl⟩ | ⟨sep, ds, rfl, hsep, hne, hdig, rfl⟩
    · simp only [List.nil_append]
      exact readFrac_eval_none zpart hznosep
    · have := @readFrac_eval_present true sep ds zpart hsep hne hdig hzhead
      simpa using this
  have hz : parseZone zpart = some off := by
    rcases hzs with ⟨rfl, rfl⟩ | ⟨sg, a1, a2, b1, b2, rfl, hsg, ha1, ha2, hb1, hb2, rfl⟩
    · exact parseZone_eval_z
    · exact parseZone_eval_off hsg ha1 ha2 hb1 hb2
  rcases hhour with ⟨a, rfl, ha, rfl⟩ | ⟨a, b, rfl, ha, hb, rfl⟩
  · have hdata2 : s.data = y1 :: y2 :: y3 :: y4 :: ('-') :: M1 :: M2 :: ('-') ::
        D1 :: D2 :: ('T') :: a :: (':') :: m1c :: m2c :: (':') ::
        s1c :: s2c :: (fpart ++ zpart) := by
      rw [hdata]
      simp
    unfold parseRFC3339
    rw [hdata2, read4_eval _ hy1 hy2 hy3 hy4, Option.some_bind]
    try dsimp only
    rw [expect_eval, Option.some_bind, read2_eval _ hM1 hM2, Option.some_bind]
    try dsimp only
    rw [expect_eval, Option.some_bind, read2_eval _ hD1 hD2, Option.some_bind]
    try dsimp only
    rw [expect_eval, Option.some_bind,
      readNum12_eval1 _ ha (by decide : Char.isDigit (':') = false),
      Option.some_bind]
    try dsimp only
    rw [if_neg (not_le.mpr hhlt), expect_eval, Option.some_bind,
      read2_eval _ hm1 hm2, Option.some_bind]
    try dsimp only
    rw [if_neg (not_le.mpr hmlt), expect_eval, Option.some_bind,
      read2_eval _ hs1 hs2, Option.some_bind]
    try dsimp only
    rw [if_neg (not_le.mpr hslt), hfr]
    try dsimp only
    rw [hz, Option.some_bind]
    try dsimp only
    rw [if_neg hmonth, if_neg hday, ht]
  · have hdata2 : s.data = y1 :: y2 :: y3 :: y4 :: ('-') :: M1 :: M2 :: ('-') ::
        D1 :: D2 :: ('T') :: a :: b :: (':') :: m1c :: m2c :: (':') ::
        s1c :: s2c :: (fpart ++ zpart) := by
      rw [hdata]
      simp
    unfold parseRFC3339
    rw [hdata2, read4_eval _ hy1 hy2 hy3 hy4, Option.some_bind]
    try dsimp only
    rw [expect_eval, Option.some_bind, read2_eval _ hM1 hM2, Option.some_bind]
    try dsimp only
    rw [expect_eval, Option.some_bind, read2_eval _ hD1 hD2, Option.some_bind]
    try dsimp only
    rw [expect_eval, Option.some_bind, readNum12_eval2 _ ha hb, Option.some_bind]
    try dsimp only
    rw [if_neg (not_le.mpr hhlt), expect_eval, Option.some_bind,
      read2_eval _ hm1 hm2, Option.some_bind]
    try dsimp only
    rw [if_neg (not_le.mpr hmlt), expect_eval, Option.some_bind,
      read2_eval _ hs1 hs2, Option.some_bind]
    try dsimp only
    rw [if_neg (not_le.mpr hslt), hfr]
    try dsimp only
    rw [hz, Option.some_bind]
    try dsimp only
    rw [if_neg hmonth, if_neg hday, ht]

set_option maxHeartbeats 2000000 in
theorem parseRFC3339_complete {s : String} {t : Instant}
    (h : parseRFC3339 s = some t) : RFCShape s t := by
  unfold parseRFC3339 at h
  rw [Option.bind_eq_some] at h
  obtain ⟨⟨yv, l1⟩, hr4, h⟩ := h
  try dsimp only at h
  rw [Option.bind_eq_some] at h
  obtain ⟨l2, he1, h⟩ := h
  try dsimp only at h
  rw [Option.bind_eq_some] at h
  obtain ⟨⟨mov, l3⟩, hr2a, h⟩ := h
  try dsimp only at h
  rw [Option.bind_eq_some] at h
  obtain ⟨l4, he2, h⟩ := h
  try dsimp only at h
  rw [Option.bind_eq_some] at h
  obtain ⟨⟨dv, l5⟩, hr2b, h⟩ := h
  try dsimp only at h
  rw [Option.bind_eq_some] at h
  obtain ⟨l6, he3, h⟩ := h
  try dsimp only at h
  rw [Option.bind_eq_some] at h
  obtain ⟨⟨hv, l7⟩, hr12, h⟩ := h
  try dsimp only at h
  by_cases hhle : 24 ≤ hv
  · rw [if_pos hhle] at h
    exact Option.noConfusion h
  rw [if_neg hhle] at h
  rw [Option.bind_eq_some] at h
  obtain ⟨l8, he4, h⟩ := h
  try dsimp only at h
  rw [Option.bind_eq_some] at h
  obtain ⟨⟨miv, l9⟩, hr2c, h⟩ := h
  try dsimp only at h
  by_cases hmle : 60 ≤ miv
  · rw [if_pos hmle] at h
    exact Option.noConfusion h
  rw [if_neg hmle] at h
  rw [Option.bind_eq_some] at h
  obtain ⟨l10, he5, h⟩ := h
  try dsimp only at h
  rw [Option.bind_eq_some] at h
  obtain ⟨⟨sv, l11⟩, hr2d, h⟩ := h
  try dsimp only at h
  by_cases hsle : 60 ≤ sv
  · rw [if_pos hsle] at h
    exact Option.noConfusion h
  rw [if_neg hsle] at h
  rcases hfr : readFrac true l11 with ⟨nsv, l12⟩
  rw [hfr] at h
  try dsimp only at h
  rw [Option.bind_eq_some] at h
  obtain ⟨off, hzp, h⟩ := h
  try dsimp only at h
  by_cases hmor : mov < 1 ∨ 12 < mov
  · rw [if_pos hmor] at h
    exact Option.noConfusion h
  rw [if_neg hmor] at h
  by_cases hdor : dv < 1 ∨ daysInMonth (yv : Int) (mov : Int) < (dv : Int)
  · rw [if_pos hdor] at h
    exact Option.noConfusion h
  rw [if_neg hdor] at h
  simp only [Option.some.injEq] at h
  obtain ⟨y1, y2, y3, y4, hsd, hy1, hy2, hy3, hy4, hyv⟩ := read4_some hr4
  have he1b := expect_some he1
  obtain ⟨M1, M2, hl2, hM1, hM2, hmov⟩ := read2_some hr2a
  have he2b := expect_some he2
  obtain ⟨D1, D2, hl4, hD1, hD2, hdv⟩ := read2_some hr2b
  have he3b := expect_some he3
  have he4b := expect_some he4
  obtain ⟨m1c, m2c, hl8, hm1, hm2, hmiv⟩ := read2_some hr2c
  have he5b := expect_some he5
  obtain ⟨s1c, s2c, hl10, hs1, hs2, hsv⟩ := read2_some hr2d
  obtain ⟨fpart, hl11, hfs⟩ := readFrac_some hfr
  have hzs := parseZone_some hzp
  have hhlt : hv < 24 := not_le.mp hhle
  have hmlt : miv < 60 := not_le.mp hmle
  have hslt : sv < 60 := not_le.mp hsle
  rw [not_or] at hmor hdor
  have hmo1 : 1 ≤ mov := not_lt.mp hmor.1
  have hmo2 : mov ≤ 12 := not_lt.mp hmor.2
  have hd1 : 1 ≤ dv := not_lt.mp hdor.1
  have hd2 : (dv : Int) ≤ daysInMonth (yv : Int) (mov : Int) := not_lt.mp hdor.2
  subst hyv hmov hdv hmiv hsv
  subst hl11 hl10 he5b hl8 he4b
  rcases readNum12_some hr12 with ⟨a, b, hl6, hA, hB, hhv⟩ |
    ⟨a, hA, hhv, ⟨hl6, hl7⟩ | ⟨b, rest, hl6, hB, hl7⟩⟩
  · subst hhv hl6 he3b hl4 he2b hl2 he1b
    refine ⟨y1, y2, y3, y4, M1, M2, D1, D2, [a, b], m1c, m2c, s1c, s2c, fpart,
      l12, val2 a b, nsv, off, ?_, hy1, hy2, hy3, hy4, hM1, hM2, hD1, hD2,
      hm1, hm2, hs1, hs2, Or.inr ⟨a, b, rfl, hA, hB, rfl⟩, hhlt, hmlt, hslt,
      hfs, hzs, hmo1, hmo2, hd1, hd2, h.symm⟩
    rw [hsd]
    simp
  · exact List.noConfusion hl7
  · injection hl7 with hb hrest
    subst hb hrest hhv hl6 he3b hl4 he2b hl2 he1b
    refine ⟨y1, y2, y3, y4, M1, M2, D1, D2, [a], m1c, m2c, s1c, s2c, fpart,
      l12, dval a, nsv, off, ?_, hy1, hy2, hy3, hy4, hM1, hM2, hD1, hD2,
      hm1, hm2, hs1, hs2, Or.inl ⟨a, rfl, hA, rfl⟩, hhlt, hmlt, hslt,
      hfs, hzs, hmo1, hmo2, hd1, hd2, h.symm⟩
    rw [hsd]
    simp

end Whoop

namespace Whoop

theorem FracShape_functional {a1 a2 : Bool} {f : List Char} {n1 n2 : Nat}
    (h1 : FracShape a1 f n1) (h2 : FracShape a2 f n2) : n1 = n2 := by
  rcases h1 with ⟨rfl, rfl⟩ | ⟨sep, ds, rfl, -, -, -, rfl⟩
  · rcases h2 with ⟨-, rfl⟩ | ⟨sep, ds, hds, -, -, -, rfl⟩
    · rfl
    · exact List.noConfusion hds
  · rcases h2 with ⟨hds, -⟩ | ⟨sep2, ds2, hds, -, -, -, rfl⟩
    · exact List.noConfusion hds
    · injection hds with h1 h2
      rw [h2]

theorem tails_agree {fpartN fpartR zpart : List Char} {nsN nsR : Nat} {off : Int}
    (htail : fpartN ++ [('Z')] = fpartR ++ zpart)
    (hfsN : FracShape true fpartN nsN) (hfsR : FracShape true fpartR nsR)
    (hzs : ZoneShape zpart off) : nsN = nsR ∧ off = 0 := by
  rcases hzs with ⟨rfl, rfl⟩ | ⟨sg, zh1, zh2, zm1, zm2, rfl, hsg, g1, g2, g3, g4, rfl⟩
  · have hfp : fpartN = fpartR := List.append_cancel_right htail
    subst hfp
    exact ⟨FracShape_functional hfsN hfsR, rfl⟩
  · exfalso
    have hlast := congrArg List.getLast? htail
    rw [List.getLast?_concat] at hlast
    have hsplit : fpartR ++ [sg, zh1, zh2, (':'), zm1, zm2] =
        (fpartR ++ [sg, zh1, zh2, (':'), zm1]) ++ [zm2] := by
      simp
    rw [hsplit, List.getLast?_concat] at hlast
    injection hlast with hzeq
    rw [← hzeq] at g4
    exact absurd g4 (by decide)

theorem shapes_agree {s : String} {t1 t2 : Instant}
    (hn : NativeShape s t1) (hr : RFCShape s t2) : t1 = t2 := by
  obtain ⟨y1, y2, y3, y4, M1, M2, D1, D2, hpartN, m1, m2, s1, s2, fpartN, hvN, nsN,
    hdataN, hy1, hy2, hy3, hy4, hM1, hM2, hD1, hD2, hm1, hm2, hs1, hs2,
    hhourN, hhltN, hmltN, hsltN, hfsN, hmo1, hmo2, hd1, hd2, ht1⟩ := hn
  obtain ⟨Y1, Y2, Y3, Y4, N1, N2, E1, E2, hpartR, Mi1, Mi2, S1, S2,
    fpartR, zpart, hvR, nsR, off, hdataR, gy1, gy2, gy3, gy4, gM1, gM2, gD1, gD2,
    gm1, gm2, gs1, gs2, ghourR, ghltR, gmltR, gsltR, hfsR, hzsR,
    gmo1, gmo2, gd1, gd2, ht2⟩ := hr
  have heq := hdataN.symm.trans hdataR
  rcases hhourN with ⟨a, rfl, ha, rfl⟩ | ⟨a, b, rfl, ha, hb, rfl⟩ <;>
    rcases ghourR with ⟨c, rfl, hc, rfl⟩ | ⟨c, d, rfl, hc, hd, rfl⟩
  · -- one-digit hour on both sides
    simp only [List.cons_append, List.nil_append, List.append_assoc,
      List.cons.injEq] at heq
    obtain ⟨hc1, hc2, hc3, hc4, -, hc5, hc6, -, hc7, hc8, -, hc9, -,
      hc10, hc11, -, hc12, hc13, htail⟩ := heq
    subst hc1 hc2 hc3 hc4 hc5 hc6 hc7 hc8 hc9 hc10 hc11 hc12 hc13
    obtain ⟨hns, hoff⟩ := tails_agree htail hfsN hfsR hzsR
    rw [ht1, ht2, hns, hoff]
    simp
  · -- native one-digit, RFC two-digit: the second RFC hour digit sits
    -- where the native layout demands a colon
    simp only [List.cons_append, List.nil_append, List.append_assoc,
      List.cons.injEq] at heq
    obtain ⟨-, -, -, -, -, -, -, -, -, -, -, -, hx, -⟩ := heq
    rw [← hx] at hd
    exact absurd hd (by decide)
  · -- native two-digit, RFC one-digit: the second native hour digit sits
    -- where the RFC layout demands a colon
    simp only [List.cons_append, List.nil_append, List.append_assoc,
      List.cons.injEq] at heq
    obtain ⟨-, -, -, -, -, -, -, -, -, -, -, -, hx, -⟩ := heq
    subst hx
    exact absurd hb (by decide)
  · -- two-digit hour on both sides
    simp only [List.cons_append, List.nil_append, List.append_assoc,
      List.cons.injEq] at heq
    obtain ⟨hc1, hc2, hc3, hc4, -, hc5, hc6, -, hc7, hc8, -, hc9, hc10, -,
      hc11, hc12, -, hc13, hc14, htail⟩ := heq
    subst hc1 hc2 hc3 hc4 hc5 hc6 hc7 hc8 hc9 hc10 hc11 hc12 hc13 hc14
    obtain ⟨hns, hoff⟩ := tails_agree htail hfsN hfsR hzsR
    rw [ht1, ht2, hns, hoff]
    simp

end Whoop

namespace Whoop

/-- Claim C8: `ParseWhoopTime` accepts exactly the two timestamp shapes —
it returns `ok t` precisely when the input is a native-layout string or an
RFC3339 string denoting the instant `t`, and it returns a parse error
precisely when the input matches neither shape. -/
theorem claim8_parse_shapes (s : String) :
    (∀ t : Instant, ParseWhoopTime s = .ok t ↔ (NativeShape s t ∨ RFCShape s t)) ∧
    ((∃ msg, ParseWhoopTime s = .error msg) ↔
      ∀ t : Instant, ¬(NativeShape s t ∨ RFCShape s t)) := by
  have hfwd : ∀ t, ParseWhoopTime s = .ok t → NativeShape s t ∨ RFCShape s t := by
    intro t h
    unfold ParseWhoopTime at h
    cases hN : parseNative s with
    | some u =>
      rw [hN] at h
      try dsimp only at h
      injection h with h2
      subst h2
      exact Or.inl (parseNative_complete hN)
    | none =>
      rw [hN] at h
      try dsimp only at h
      cases hR : parseRFC3339 s with
      | some u =>
        rw [hR] at h
        try dsimp only at h
        injection h with h2
        subst h2
        exact Or.inr (parseRFC3339_complete hR)
      | none =>
        rw [hR] at h
        exact Except.noConfusion h
  have hbwd : ∀ t, (NativeShape s t ∨ RFCShape s t) → ParseWhoopTime s = .ok t := by
    intro t ht
    unfold ParseWhoopTime
    rcases ht with hn | hr
    · rw [parseNative_sound hn]
    · cases hN : parseNative s with
      | some u =>
        have hu := shapes_agree (parseNative_complete hN) hr
        rw [hu]
      | none =>
        rw [parseRFC3339_sound hr]
  refine ⟨fun t => ⟨hfwd t, hbwd t⟩, ?_, ?_⟩
  · rintro ⟨msg, hmsg⟩ t hsh
    have hok := hbwd t hsh
    rw [hok] at hmsg
    exact Except.noConfusion hmsg
  · intro hall
    cases hP : ParseWhoopTime s with
    | ok u => exact absurd (hfwd u hP) (hall u)
    | error msg => exact ⟨msg, rfl⟩

end Whoop

namespace Whoop

/-- Witness for C8: the Go test vector `2026-02-10T07:30:00.000Z` is
native-shaped and parses to 2026-02-10T07:30:00 UTC. -/
theorem claim8_witness :
    NativeShape ("2026-02-10T07:30:00.000Z") (civilInstant 2026 2 10 7 30 0 0) ∧
    ParseWhoopTime ("2026-02-10T07:30:00.000Z") =
      .ok (civilInstant 2026 2 10 7 30 0 0) := by
  have hshape : NativeShape ("2026-02-10T07:30:00.000Z")
      (civilInstant 2026 2 10 7 30 0 0) := by
    refine ⟨('2'), ('0'), ('2'), ('6'), ('0'), ('2'), ('1'), ('0'),
      [('0'), ('7')], ('3'), ('0'), ('0'), ('0'),
      [('.'), ('0'), ('0'), ('0')], 7, 0, ?_, by decide, by decide, by decide,
      by decide, by decide, by decide, by decide, by decide, by decide,
      by decide, by decide, by decide,
      Or.inr ⟨('0'), ('7'), rfl, by decide, by decide, by decide⟩,
      by decide, by decide, by decide,
      Or.inr ⟨('.'), [('0'), ('0'), ('0')], rfl, Or.inl rfl, by decide,
        by decide, by decide⟩,
      by decide, by decide, by decide, by decide, by decide⟩
    decide
  exact ⟨hshape, ((claim8_parse_shapes _).1 _).mpr (Or.inl hshape)⟩

end Whoop
